import Mathlib

/-!
# Reviewer assignment service: embedding and verified properties

A shallow embedding of the repository's layers.

* `models`     : the Go structs of `internal/models/models.go`.
* `repo`       : the SQL statements of `internal/repository/repository.go`, read as
  functions on an in-memory `Store` (three tables, each a list of rows in table order).
* `prService`  : the use cases of `internal/usecase/usecase.go`, written with explicit
  state passing over the repository functions.
* `Handler`    : the request handlers of `internal/delivery/handler.go`, from the decoded
  request body to the HTTP status and payload.

Conventions.

* Go `error` values are `GoError`; a `nil` error is the `.ok` branch of `Except`.
* Failures of the database connection are outside the model: an SQL statement always
  executes. The Go branches that only pass such a failure on have no counterpart here.
* `NOW()` is the parameter `now`; `rand.Shuffle` is the parameter `shuffle`;
  `ORDER BY RANDOM()` is the parameter `pick`.
-/

set_option autoImplicit false

/-! ## Go error values -/

/-- Go error value. `errorString site s` is the pointer returned by one `errors.New(s)`
call; `site` names the place of the allocation, so two values with different sites are
different pointers. `wrapError msg err` is the value built by `fmt.Errorf` with `%w`. -/
inductive GoError where
  | errorString (site : String) (s : String)
  | wrapError (msg : String) (err : GoError)
deriving DecidableEq

namespace GoError

/-- Method `Error()` of both error types. -/
def Error : GoError → String
  | errorString _ s => s
  | wrapError msg _ => msg

/-- Method `Unwrap()`: only `*fmt.wrapError` has one. -/
def Unwrap : GoError → Option GoError
  | errorString _ _ => none
  | wrapError _ err => some err

end GoError

/-- Call `fmt.Errorf(pre + "%w", err)`: the message is the text before the verb followed
by the message of the wrapped error. -/
def fmtErrorf (pre : String) (err : GoError) : GoError :=
  GoError.wrapError (pre ++ err.Error) err

/-- Function `errors.Is`: pointer comparison along the `Unwrap` chain. -/
def errorsIs : GoError → GoError → Bool
  | GoError.errorString site s, target => decide (GoError.errorString site s = target)
  | GoError.wrapError msg err, target =>
      decide (GoError.wrapError msg err = target) || errorsIs err target

/-! ## Data model (`internal/models/models.go`) -/

namespace models

/-- Go struct `models.Member`. -/
structure Member where
  ID : String
  Username : String
  IsActive : Bool
deriving DecidableEq

/-- Go struct `models.Team`. -/
structure Team where
  Name : String
  Members : List Member
deriving DecidableEq

/-- Go struct `models.User`; also the row type of table `users`. -/
structure User where
  ID : String
  Username : String
  TeamName : String
  IsActive : Bool
deriving DecidableEq

/-- Go struct `models.PullRequest`; also the row type of table `pull_requests`.
Time stamps are natural numbers, `none` is SQL `NULL` (a nil `*time.Time`). -/
structure PullRequest where
  ID : String
  Name : String
  AuthorID : String
  Status : String
  AssignedReviewers : List String
  CreatedAt : Option Nat
  MergedAt : Option Nat
deriving DecidableEq

end models

open models

/-! ## The persistent store -/

/-- The three tables read and written by the repository, rows in table order. -/
structure Store where
  teams : List String
  users : List User
  pull_requests : List PullRequest
deriving DecidableEq

/-- The store before any request. -/
def Store.empty : Store := ⟨[], [], []⟩

/-- Statement `UPDATE t SET ... WHERE cond RETURNING ...`: the table afterwards and the
rows returned (the updated rows, in table order). -/
def sqlUpdate {α : Type} (rows : List α) (cond : α → Bool) (set : α → α) :
    List α × List α :=
  (rows.map (fun r => if cond r then set r else r), (rows.filter cond).map set)

/-- SQL function `array_replace(arr, old, new)`: every element equal to `old` becomes
`new`. -/
def array_replace (arr : List String) (old new : String) : List String :=
  arr.map (fun x => if x = old then new else x)

/-- Order of two ids by code points, used for `ORDER BY user_id`. -/
def idLe : List Char → List Char → Bool
  | [], _ => true
  | _ :: _, [] => false
  | a :: as, b :: bs => a.toNat < b.toNat || (a.toNat = b.toNat && idLe as bs)

/-- Insertion of a member into a list ordered by id. -/
def insertById (m : Member) : List Member → List Member
  | [] => [m]
  | x :: xs => if idLe m.ID.data x.ID.data then m :: x :: xs else x :: insertById m xs

/-- Clause `ORDER BY user_id`. -/
def orderById (ms : List Member) : List Member :=
  ms.foldr insertById []

/-! ## Repository (`internal/repository/repository.go`) -/

namespace repo

/-- Package variable `ErrTeamNotFound`, allocated once. -/
def ErrTeamNotFound : GoError := GoError.errorString "repository.go:17" "team not found"

/-- One `INSERT INTO users ... ON CONFLICT (user_id) DO UPDATE SET ...`. -/
def upsertUser (users : List User) (u : User) : List User :=
  if users.any (fun x => x.ID = u.ID) then
    users.map (fun x => if x.ID = u.ID then u else x)
  else users ++ [u]

/-- Method `CreateOrUpdateTeam`: the team row is inserted unless present, then every
member is upserted in order, inside one transaction. -/
def CreateOrUpdateTeam (s : Store) (team : Team) : Store :=
  { s with
    teams := if s.teams.contains team.Name then s.teams else s.teams ++ [team.Name]
    users := team.Members.foldl
      (fun us m => upsertUser us ⟨m.ID, m.Username, team.Name, m.IsActive⟩) s.users }

/-- Method `GetTeam`. -/
def GetTeam (s : Store) (teamName : String) : Except GoError Team :=
  if s.teams.contains teamName then
    .ok ⟨teamName, orderById ((s.users.filter (fun u => u.TeamName = teamName)).map
      (fun u => ⟨u.ID, u.Username, u.IsActive⟩))⟩
  else .error ErrTeamNotFound

/-- Method `SetUserActive`. -/
def SetUserActive (s : Store) (userID : String) (isActive : Bool) :
    Except GoError User × Store :=
  let r := sqlUpdate s.users (fun u => u.ID = userID) (fun u => { u with IsActive := isActive })
  match r.2 with
  | [] => (.error (GoError.errorString "repository.go:100" "user not found"), { s with users := r.1 })
  | u :: _ => (.ok u, { s with users := r.1 })

/-- Method `GetUserTeam`. -/
def GetUserTeam (s : Store) (userID : String) : Except GoError String :=
  match s.users.find? (fun u => u.ID = userID) with
  | none => .error (GoError.errorString "repository.go:112" "user not found")
  | some u => .ok u.TeamName

/-- Rows selected by `WHERE team_name = $1 AND is_active = true AND user_id != $2`. -/
def activeExcluding (s : Store) (teamName excludeID : String) : List String :=
  (s.users.filter (fun u => u.TeamName = teamName && u.IsActive && u.ID != excludeID)).map
    (fun u => u.ID)

/-- Method `RandomActiveMemberFromTeam`: `ORDER BY RANDOM() LIMIT 1` yields the row at a
position chosen by the random source `pick`. -/
def RandomActiveMemberFromTeam (pick : Nat) (s : Store) (teamName excludeID : String) :
    Except GoError String :=
  let rows := activeExcluding s teamName excludeID
  match rows[pick % rows.length]? with
  | none => .error (GoError.errorString "repository.go:127" "no candidate")
  | some userID => .ok userID

/-- Method `GetActiveMembersExcluding`. -/
def GetActiveMembersExcluding (s : Store) (teamName excludeID : String) : List String :=
  activeExcluding s teamName excludeID

/-- Modelled from the spec: the schema of `pull_requests` is not part of the sources; the
spec lists `pull_request_id` as unique, so the `INSERT` fails on an id already present. -/
def uniqueViolation : GoError :=
  GoError.errorString "pgx" "duplicate key value violates unique constraint"

/-- Method `CreatePR`: the row is stored with status `OPEN` and `created_at = NOW()`. -/
def CreatePR (now : Nat) (s : Store) (pr : PullRequest) : Option GoError × Store :=
  if s.pull_requests.any (fun p => p.ID = pr.ID) then
    (some (fmtErrorf "create pr: " uniqueViolation), s)
  else
    (none, { s with pull_requests := s.pull_requests ++
      [⟨pr.ID, pr.Name, pr.AuthorID, "OPEN", pr.AssignedReviewers, some now, none⟩] })

/-- Method `GetPR`. -/
def GetPR (s : Store) (prID : String) : Except GoError PullRequest :=
  match s.pull_requests.find? (fun p => p.ID = prID) with
  | none => .error (GoError.errorString "repository.go:202" "pr not found")
  | some pr => .ok pr

/-- Clause `WHERE pull_request_id = $1 AND status = 'OPEN'` of `MergePR`. -/
def mergeWhere (prID : String) (p : PullRequest) : Bool :=
  p.ID = prID && p.Status = "OPEN"

/-- Clause `SET status = 'MERGED', merged_at = COALESCE(merged_at, NOW())`. -/
def mergeSet (now : Nat) (p : PullRequest) : PullRequest :=
  { p with Status := "MERGED", MergedAt := some (p.MergedAt.getD now) }

/-- Method `MergePR`: when the update returns no row, the pull request is read. -/
def MergePR (now : Nat) (s : Store) (prID : String) : Except GoError PullRequest × Store :=
  let r := sqlUpdate s.pull_requests (mergeWhere prID) (mergeSet now)
  let s1 : Store := { s with pull_requests := r.1 }
  match r.2 with
  | [] => (GetPR s1 prID, s1)
  | pr :: _ => (.ok pr, s1)

/-- Clause `WHERE pull_request_id = $1 AND status = 'OPEN' AND $2 = ANY(assigned_reviewers)`
of `ReassignReviewer`. -/
def reassignWhere (prID oldUserID : String) (p : PullRequest) : Bool :=
  p.ID = prID && p.Status = "OPEN" && p.AssignedReviewers.contains oldUserID

/-- Clause `SET assigned_reviewers = array_replace(assigned_reviewers, $2, $3)`. -/
def reassignSet (oldUserID newUserID : String) (p : PullRequest) : PullRequest :=
  { p with AssignedReviewers := array_replace p.AssignedReviewers oldUserID newUserID }

/-- Method `ReassignReviewer`. -/
def ReassignReviewer (s : Store) (prID oldUserID newUserID : String) :
    Except GoError PullRequest × Store :=
  let r := sqlUpdate s.pull_requests (reassignWhere prID oldUserID)
    (reassignSet oldUserID newUserID)
  let s1 : Store := { s with pull_requests := r.1 }
  match r.2 with
  | [] => (.error (GoError.errorString "repository.go:248" "cannot reassign"), s1)
  | pr :: _ => (.ok pr, s1)

end repo

/-! ## Use cases (`internal/usecase/usecase.go`) -/

namespace prService

/-- Methods of the `PRRepository` interface the use cases invoke. -/
inductive RepoCall where
  | CreateOrUpdateTeam
  | GetTeam
  | SetUserActive
  | GetUserTeam
  | RandomActiveMemberFromTeam
  | CreatePR
  | GetPR
  | MergePR
  | ReassignReviewer
  | GetActiveMembersExcluding
deriving DecidableEq

/-- What a use case leaves behind: the returned value or error, the store afterwards, and
the repository methods it invoked, in order. -/
structure Outcome (α : Type) where
  result : Except GoError α
  store : Store
  calls : List RepoCall

/-- Method `CreateTeam`. -/
def CreateTeam (s : Store) (team : Team) : Outcome Team :=
  if team.Name = "" then
    ⟨.error (GoError.errorString "usecase.go:26" "team name required"), s, []⟩
  else if team.Members.length = 0 then
    ⟨.error (GoError.errorString "usecase.go:30" "members required"), s, []⟩
  else if team.Members.any (fun m => m.ID = "" || m.Username = "") then
    ⟨.error (GoError.errorString "usecase.go:35" "invalid member data"), s, []⟩
  else
    match repo.GetTeam s team.Name with
    | .ok _ =>
        ⟨.error (GoError.errorString "usecase.go:42" "TEAM_EXISTS"), s, [.GetTeam]⟩
    | .error err =>
        if !errorsIs err repo.ErrTeamNotFound then
          ⟨.error (fmtErrorf "check team exists: " err), s, [.GetTeam]⟩
        else
          let s1 := repo.CreateOrUpdateTeam s team
          match repo.GetTeam s1 team.Name with
          | .error err1 =>
              ⟨.error (fmtErrorf "get team: " err1), s1,
                [.GetTeam, .CreateOrUpdateTeam, .GetTeam]⟩
          | .ok newTeam => ⟨.ok newTeam, s1, [.GetTeam, .CreateOrUpdateTeam, .GetTeam]⟩

/-- Method `SetUserActive`. -/
def SetUserActive (s : Store) (userID : String) (isActive : Bool) : Outcome User :=
  if userID = "" then
    ⟨.error (GoError.errorString "usecase.go:78" "user id required"), s, []⟩
  else
    match repo.SetUserActive s userID isActive with
    | (.error err, s1) => ⟨.error (fmtErrorf "set active: " err), s1, [.SetUserActive]⟩
    | (.ok user, s1) => ⟨.ok user, s1, [.SetUserActive]⟩

/-- Method `CreatePR`. `shuffle` is the permutation applied by `rand.Shuffle`. -/
def CreatePR (shuffle : List String → List String) (now : Nat) (s : Store)
    (pr : PullRequest) : Outcome PullRequest :=
  if pr.ID = "" ∨ pr.Name = "" ∨ pr.AuthorID = "" then
    ⟨.error (GoError.errorString "usecase.go:91" "pr fields required"), s, []⟩
  else
    match repo.GetUserTeam s pr.AuthorID with
    | .error err => ⟨.error (fmtErrorf "get author team: " err), s, [.GetUserTeam]⟩
    | .ok teamName =>
        let members := shuffle (repo.GetActiveMembersExcluding s teamName pr.AuthorID)
        let pr1 : PullRequest :=
          { pr with
            AssignedReviewers := if members.length > 2 then members.take 2 else members
            Status := "OPEN" }
        match repo.GetPR s pr1.ID with
        | .ok _ =>
            ⟨.error (GoError.errorString "usecase.go:113" "PR_EXISTS"), s,
              [.GetUserTeam, .GetActiveMembersExcluding, .GetPR]⟩
        | .error _ =>
            match repo.CreatePR now s pr1 with
            | (some err, s1) =>
                ⟨.error (fmtErrorf "create pr: " err), s1,
                  [.GetUserTeam, .GetActiveMembersExcluding, .GetPR, .CreatePR]⟩
            | (none, s1) =>
                ⟨repo.GetPR s1 pr1.ID, s1,
                  [.GetUserTeam, .GetActiveMembersExcluding, .GetPR, .CreatePR, .GetPR]⟩

/-- Method `MergePR`. -/
def MergePR (now : Nat) (s : Store) (prID : String) : Outcome PullRequest :=
  if prID = "" then
    ⟨.error (GoError.errorString "usecase.go:126" "pr id required"), s, []⟩
  else
    match repo.MergePR now s prID with
    | (.error err, s1) => ⟨.error (fmtErrorf "merge pr: " err), s1, [.MergePR]⟩
    | (.ok pr, s1) => ⟨.ok pr, s1, [.MergePR]⟩

/-- Method `ReassignReviewer`. `pick` is the random source of the candidate query. -/
def ReassignReviewer (pick : Nat) (s : Store) (prID oldUserID : String) :
    Outcome (PullRequest × String) :=
  if prID = "" ∨ oldUserID = "" then
    ⟨.error (GoError.errorString "usecase.go:139" "fields required"), s, []⟩
  else
    match repo.GetPR s prID with
    | .error err => ⟨.error (fmtErrorf "get pr: " err), s, [.GetPR]⟩
    | .ok pr =>
        if pr.Status = "MERGED" then
          ⟨.error (GoError.errorString "usecase.go:149" "PR_MERGED"), s, [.GetPR]⟩
        else if !pr.AssignedReviewers.any (fun r => r = oldUserID) then
          ⟨.error (GoError.errorString "usecase.go:160" "NOT_ASSIGNED"), s, [.GetPR]⟩
        else
          match repo.GetUserTeam s oldUserID with
          | .error err =>
              ⟨.error (fmtErrorf "get old team: " err), s, [.GetPR, .GetUserTeam]⟩
          | .ok teamName =>
              match repo.RandomActiveMemberFromTeam pick s teamName oldUserID with
              | .error err =>
                  ⟨.error (fmtErrorf "get new reviewer: " err), s,
                    [.GetPR, .GetUserTeam, .RandomActiveMemberFromTeam]⟩
              | .ok newUserID =>
                  match repo.ReassignReviewer s prID oldUserID newUserID with
                  | (.error err, s1) =>
                      ⟨.error (fmtErrorf "reassign: " err), s1,
                        [.GetPR, .GetUserTeam, .RandomActiveMemberFromTeam,
                          .ReassignReviewer]⟩
                  | (.ok pr1, s1) =>
                      ⟨.ok (pr1, newUserID), s1,
                        [.GetPR, .GetUserTeam, .RandomActiveMemberFromTeam,
                          .ReassignReviewer]⟩

end prService

/-! ## Request surface (`internal/delivery/dto/dto.go`, `internal/delivery/handler.go`) -/

namespace dto

/-- Go struct `MemberDTO`. -/
structure MemberDTO where
  UserID : String
  Username : String
  IsActive : Bool
deriving DecidableEq

/-- Go struct `TeamDTO`. -/
structure TeamDTO where
  TeamName : String
  Members : List MemberDTO
deriving DecidableEq

/-- Go struct `UserActiveDTO`. -/
structure UserActiveDTO where
  UserID : String
  IsActive : Bool
deriving DecidableEq

/-- Go struct `PRCreateDTO`. -/
structure PRCreateDTO where
  PullRequestID : String
  PullRequestName : String
  AuthorID : String
deriving DecidableEq

/-- Go struct `PRMergeDTO`. -/
structure PRMergeDTO where
  PullRequestID : String
deriving DecidableEq

/-- Go struct `PRReassignDTO`. -/
structure PRReassignDTO where
  PullRequestID : String
  OldUserID : String
deriving DecidableEq

/-- Go struct `PRResponse`. -/
structure PRResponse where
  PullRequestID : String
  PullRequestName : String
  AuthorID : String
  Status : String
  AssignedReviewers : List String
  CreatedAt : Option Nat
  MergedAt : Option Nat
deriving DecidableEq

/-- Go struct `UserResponse`. -/
structure UserResponse where
  UserID : String
  Username : String
  TeamName : String
  IsActive : Bool
deriving DecidableEq

/-- Go struct `TeamResponse`. -/
structure TeamResponse where
  TeamName : String
  Members : List MemberDTO
deriving DecidableEq

end dto

namespace Handler

/-- What a handler writes as JSON: the `errorResponse` struct, or the value under the key
`team`, `user` or `pr` (the last with `replaced_by` for a reassignment). -/
inductive Payload where
  | error (code message : String)
  | team (resp : dto.TeamResponse)
  | user (resp : dto.UserResponse)
  | pr (resp : dto.PRResponse)
  | reassigned (resp : dto.PRResponse) (replaced_by : String)
deriving DecidableEq

/-- The HTTP response of a handler: status code and JSON payload. -/
structure Response where
  status : Nat
  body : Payload
deriving DecidableEq

/-- Method `sendError`. -/
def sendError (status : Nat) (code msg : String) : Response :=
  ⟨status, Payload.error code msg⟩

/-- Conversion of a pull request into `PRResponse`, as written out in each handler. -/
def prResponse (pr : PullRequest) : dto.PRResponse :=
  ⟨pr.ID, pr.Name, pr.AuthorID, pr.Status, pr.AssignedReviewers, pr.CreatedAt, pr.MergedAt⟩

/-- Method `AddTeam`. A request body that does not decode is `none`. The target of
`errors.Is` is the value of a new call `errors.New("TEAM_EXISTS")` at handler.go:57: each
call of `errors.New` returns a distinct pointer. -/
def AddTeam (s : Store) (body : Option dto.TeamDTO) : Response × Store :=
  match body with
  | none => (sendError 400 "INVALID_REQUEST" "invalid json", s)
  | some req =>
      let team : Team :=
        ⟨req.TeamName, req.Members.map (fun m => ⟨m.UserID, m.Username, m.IsActive⟩)⟩
      let o := prService.CreateTeam s team
      match o.result with
      | .error err =>
          if errorsIs err (GoError.errorString "handler.go:57" "TEAM_EXISTS") then
            (sendError 400 "TEAM_EXISTS" "team_name already exists", o.store)
          else (sendError 500 "INTERNAL" "internal error", o.store)
      | .ok created =>
          (⟨201, Payload.team ⟨created.Name,
            created.Members.map (fun m => ⟨m.ID, m.Username, m.IsActive⟩)⟩⟩, o.store)

/-- Method `SetIsActive`. -/
def SetIsActive (s : Store) (body : Option dto.UserActiveDTO) : Response × Store :=
  match body with
  | none => (sendError 400 "INVALID_REQUEST" "invalid json", s)
  | some req =>
      let o := prService.SetUserActive s req.UserID req.IsActive
      match o.result with
      | .error err =>
          if err.Error = "user not found" then
            (sendError 404 "NOT_FOUND" "user not found", o.store)
          else (sendError 500 "INTERNAL" "internal error", o.store)
      | .ok user =>
          (⟨200, Payload.user ⟨user.ID, user.Username, user.TeamName, user.IsActive⟩⟩,
            o.store)

/-- Method `CreatePR`. -/
def CreatePR (shuffle : List String → List String) (now : Nat) (s : Store)
    (body : Option dto.PRCreateDTO) : Response × Store :=
  match body with
  | none => (sendError 400 "INVALID_REQUEST" "invalid json", s)
  | some req =>
      let pr : PullRequest :=
        ⟨req.PullRequestID, req.PullRequestName, req.AuthorID, "", [], none, none⟩
      let o := prService.CreatePR shuffle now s pr
      match o.result with
      | .error err =>
          if errorsIs err (GoError.errorString "handler.go:157" "PR_EXISTS") then
            (sendError 409 "PR_EXISTS" "PR id already exists", o.store)
          else if err.Error = "user not found" then
            (sendError 404 "NOT_FOUND" "author not found", o.store)
          else (sendError 500 "INTERNAL" "internal error", o.store)
      | .ok created => (⟨201, Payload.pr (prResponse created)⟩, o.store)

/-- Method `MergePR`. -/
def MergePR (now : Nat) (s : Store) (body : Option dto.PRMergeDTO) : Response × Store :=
  match body with
  | none => (sendError 400 "INVALID_REQUEST" "invalid json", s)
  | some req =>
      let o := prService.MergePR now s req.PullRequestID
      match o.result with
      | .error err =>
          if err.Error = "pr not found" then
            (sendError 404 "NOT_FOUND" "PR not found", o.store)
          else (sendError 500 "INTERNAL" "internal error", o.store)
      | .ok pr => (⟨200, Payload.pr (prResponse pr)⟩, o.store)

/-- Method `Reassign`. -/
def Reassign (pick : Nat) (s : Store) (body : Option dto.PRReassignDTO) :
    Response × Store :=
  match body with
  | none => (sendError 400 "INVALID_REQUEST" "invalid json", s)
  | some req =>
      let o := prService.ReassignReviewer pick s req.PullRequestID req.OldUserID
      match o.result with
      | .error err =>
          if errorsIs err (GoError.errorString "handler.go:226" "PR_MERGED") then
            (sendError 409 "PR_MERGED" "cannot reassign on merged PR", o.store)
          else if errorsIs err (GoError.errorString "handler.go:228" "NOT_ASSIGNED") then
            (sendError 409 "NOT_ASSIGNED" "reviewer is not assigned to this PR", o.store)
          else if err.Error = "no candidate" then
            (sendError 409 "NO_CANDIDATE" "no active replacement candidate in team", o.store)
          else (sendError 500 "INTERNAL" "internal error", o.store)
      | .ok (pr, replacedBy) =>
          (⟨200, Payload.reassigned (prResponse pr) replacedBy⟩, o.store)

end Handler

/-! ## Notions used by the statements -/

deriving instance DecidableEq for Except

/-- Number of active teammates of `author` in team `teamName`: the users of that team
with the active flag set, other than `author`. -/
def activeTeammateCount (s : Store) (teamName author : String) : Nat :=
  s.users.countP (fun u => u.TeamName = teamName && u.IsActive && u.ID != author)

/-- A team that `CreateTeam` has to reject on validation: empty name, no member, or a
member with an empty id or an empty username. -/
def invalidTeam (team : Team) : Prop :=
  team.Name = "" ∨ team.Members = [] ∨ ∃ m ∈ team.Members, m.ID = "" ∨ m.Username = ""

/-- The three validation errors of `CreateTeam`. -/
def isValidationError (e : GoError) : Prop :=
  e = GoError.errorString "usecase.go:26" "team name required"
    ∨ e = GoError.errorString "usecase.go:30" "members required"
    ∨ e = GoError.errorString "usecase.go:35" "invalid member data"

/-- The store states the service can be in: the empty store and every store left by a
call of one of the five state-changing use cases on such a state. The shuffle of `CreatePR`
returns a permutation of its input. -/
inductive Reachable : Store → Prop where
  | empty : Reachable Store.empty
  | createTeam (s : Store) (team : Team) :
      Reachable s → Reachable (prService.CreateTeam s team).store
  | setUserActive (s : Store) (userID : String) (isActive : Bool) :
      Reachable s → Reachable (prService.SetUserActive s userID isActive).store
  | createPR (s : Store) (shuffle : List String → List String) (now : Nat)
      (pr : PullRequest) :
      Reachable s → (∀ l, (shuffle l).Perm l) →
        Reachable (prService.CreatePR shuffle now s pr).store
  | mergePR (s : Store) (now : Nat) (prID : String) :
      Reachable s → Reachable (prService.MergePR now s prID).store
  | reassignReviewer (s : Store) (pick : Nat) (prID oldUserID : String) :
      Reachable s → Reachable (prService.ReassignReviewer pick s prID oldUserID).store

/-- Key discipline of a store: pull request ids are pairwise different and non-empty, user
ids are non-empty, and so are the reviewer ids of every pull request. -/
def Store.Keyed (s : Store) : Prop :=
  (s.pull_requests.map (fun q => q.ID)).Nodup
    ∧ (∀ p ∈ s.pull_requests, p.ID ≠ "")
    ∧ (∀ u ∈ s.users, u.ID ≠ "")
    ∧ (∀ p ∈ s.pull_requests, ∀ r ∈ p.AssignedReviewers, r ≠ "")

/-- One call of a state-changing use case, with its arguments and the values drawn from
the clock and the random source. -/
inductive Operation where
  | createTeam (team : Team)
  | setUserActive (userID : String) (isActive : Bool)
  | createPR (shuffle : List String → List String) (now : Nat) (pr : PullRequest)
  | mergePR (now : Nat) (prID : String)
  | reassignReviewer (pick : Nat) (prID oldUserID : String)

/-- The store left by an operation. -/
def Operation.run : Operation → Store → Store
  | .createTeam team, s => (prService.CreateTeam s team).store
  | .setUserActive userID isActive, s => (prService.SetUserActive s userID isActive).store
  | .createPR shuffle now pr, s => (prService.CreatePR shuffle now s pr).store
  | .mergePR now prID, s => (prService.MergePR now s prID).store
  | .reassignReviewer pick prID oldUserID, s =>
      (prService.ReassignReviewer pick s prID oldUserID).store

/-- The merge time stamp of a pull request is set exactly when its status is MERGED. -/
def mergedAtRule (p : PullRequest) : Prop :=
  p.MergedAt ≠ none ↔ p.Status = "MERGED"

/-! ## Example stores -/

/-- A store with three teams: `core` holds A, B, I, J (active) and C (inactive), `solo`
holds D (active) and E (inactive), `ops` holds G and H (active). Pull request `pr1` is
merged, the others are open; reviewer G of `pr4` belongs to another team than its
author A. -/
def exampleStore : Store :=
  { teams := ["core", "solo", "ops"]
    users := [⟨"A", "alice", "core", true⟩, ⟨"B", "bob", "core", true⟩,
      ⟨"C", "carol", "core", false⟩, ⟨"G", "gil", "ops", true⟩,
      ⟨"I", "ida", "core", true⟩, ⟨"J", "jon", "core", true⟩, ⟨"D", "dan", "solo", true⟩,
      ⟨"E", "eve", "solo", false⟩, ⟨"H", "hal", "ops", true⟩]
    pull_requests := [⟨"pr1", "fix", "A", "MERGED", ["B"], some 1, some 2⟩,
      ⟨"pr2", "feature", "A", "OPEN", ["B"], some 3, none⟩,
      ⟨"pr3", "cleanup", "E", "OPEN", ["D"], some 4, none⟩,
      ⟨"pr4", "docs", "A", "OPEN", ["B", "G"], some 5, none⟩] }

/-- A store with one team `core2` of three active users D, E, F and the open pull request
`pr2` of author D with reviewers E and F. -/
def reviewStore : Store :=
  { teams := ["core2"]
    users := [⟨"D", "dan", "core2", true⟩, ⟨"E", "eve", "core2", true⟩,
      ⟨"F", "fay", "core2", true⟩]
    pull_requests := [⟨"pr2", "feature", "D", "OPEN", ["E", "F"], some 1, none⟩] }

/-! ## Auxiliary facts about the SQL statements -/

theorem sqlUpdate_none {α : Type} (rows : List α) (cond : α → Bool) (set : α → α)
    (h : ∀ r ∈ rows, cond r = false) : sqlUpdate rows cond set = (rows, []) := by
  unfold sqlUpdate
  have h1 : rows.map (fun r => if cond r then set r else r) = rows := by
    induction rows with
    | nil => rfl
    | cons a l ih =>
        have ha : cond a = false := h a (List.mem_cons_self a l)
        have hl : ∀ r ∈ l, cond r = false := fun r hr => h r (List.mem_cons_of_mem a hr)
        simp [ha, ih hl]
  have h2 : rows.filter cond = [] := by
    rw [List.filter_eq_nil_iff]
    intro r hr
    simp [h r hr]
  rw [h1, h2]
  rfl

theorem getPR_ok_iff (s : Store) (prID : String) (pr : PullRequest) :
    repo.GetPR s prID = .ok pr ↔ s.pull_requests.find? (fun p => p.ID = prID) = some pr := by
  unfold repo.GetPR
  cases h : s.pull_requests.find? (fun p => p.ID = prID) <;> simp

theorem getPR_ok_mem (s : Store) (prID : String) (pr : PullRequest)
    (h : repo.GetPR s prID = .ok pr) : pr ∈ s.pull_requests ∧ pr.ID = prID := by
  rw [getPR_ok_iff] at h
  exact ⟨List.mem_of_find?_eq_some h, by simpa using List.find?_some h⟩

theorem getPR_absent (s : Store) (prID : String)
    (h : ∀ p ∈ s.pull_requests, p.ID ≠ prID) :
    repo.GetPR s prID = .error (GoError.errorString "repository.go:202" "pr not found") := by
  have hf : s.pull_requests.find? (fun p => p.ID = prID) = none := by
    rw [List.find?_eq_none]
    intro p hp
    simpa using h p hp
  simp [repo.GetPR, hf]

theorem getUserTeam_absent (s : Store) (userID : String)
    (h : ∀ u ∈ s.users, u.ID ≠ userID) :
    repo.GetUserTeam s userID
      = .error (GoError.errorString "repository.go:112" "user not found") := by
  have hf : s.users.find? (fun u => u.ID = userID) = none := by
    rw [List.find?_eq_none]
    intro u hu
    simpa using h u hu
  simp [repo.GetUserTeam, hf]

theorem activeExcluding_nil (s : Store) (teamName excludeID : String)
    (h : ∀ u ∈ s.users, u.TeamName = teamName → u.IsActive = true → u.ID = excludeID) :
    repo.activeExcluding s teamName excludeID = [] := by
  unfold repo.activeExcluding
  rw [List.map_eq_nil_iff, List.filter_eq_nil_iff]
  intro u hu
  simp only [Bool.and_eq_true, decide_eq_true_eq, bne_iff_ne, ne_eq, not_and, not_not]
  intro h1
  exact h u hu h1.1 h1.2

theorem activeExcluding_mem (s : Store) (teamName excludeID r : String)
    (h : r ∈ repo.activeExcluding s teamName excludeID) : ∃ u ∈ s.users, u.ID = r := by
  unfold repo.activeExcluding at h
  obtain ⟨u, hu, hid⟩ := List.mem_map.mp h
  exact ⟨u, (List.mem_filter.mp hu).1, hid⟩

theorem find_key_unique (l : List PullRequest) (k : String) (p : PullRequest)
    (hnd : (l.map (fun q => q.ID)).Nodup)
    (hf : l.find? (fun q => q.ID = k) = some p) : ∀ q ∈ l, q.ID = k → q = p := by
  induction l with
  | nil => simp at hf
  | cons a l ih =>
      rw [List.map_cons, List.nodup_cons] at hnd
      intro q hq hk
      by_cases ha : a.ID = k
      · have hap : a = p := by simpa [List.find?_cons, ha] using hf
        rcases List.mem_cons.mp hq with rfl | hq
        · exact hap
        · exact absurd (List.mem_map.mpr ⟨q, hq, hk.trans ha.symm⟩) hnd.1
      · have hf1 : l.find? (fun q => q.ID = k) = some p := by
          simpa [List.find?_cons, ha] using hf
        rcases List.mem_cons.mp hq with rfl | hq
        · exact absurd hk ha
        · exact ih hnd.2 hf1 q hq hk

theorem filter_key (l : List PullRequest) (k : String) (p : PullRequest)
    (cond : PullRequest → Bool) (hnd : (l.map (fun q => q.ID)).Nodup)
    (hf : l.find? (fun q => q.ID = k) = some p) (hc : ∀ q, cond q = true → q.ID = k) :
    l.filter cond = if cond p then [p] else [] := by
  induction l with
  | nil => simp at hf
  | cons a l ih =>
      have hall := find_key_unique (a :: l) k p hnd hf
      rw [List.map_cons, List.nodup_cons] at hnd
      by_cases ha : a.ID = k
      · have hap : a = p := by simpa [List.find?_cons, ha] using hf
        have hrest : l.filter cond = [] := by
          rw [List.filter_eq_nil_iff]
          intro q hq hcq
          exact hnd.1 (List.mem_map.mpr ⟨q, hq, (hc q hcq).trans ha.symm⟩)
        subst hap
        by_cases hca : cond a = true
        · simp [List.filter_cons, hca, hrest]
        · simp [List.filter_cons, hca, hrest]
      · have hf1 : l.find? (fun q => q.ID = k) = some p := by
          simpa [List.find?_cons, ha] using hf
        have hca : cond a = false := by
          cases h : cond a
          · rfl
          · exact absurd (hc a h) ha
        simp [List.filter_cons, hca, ih hnd.2 hf1]

theorem find_map_key (l : List PullRequest) (k : String) (f : PullRequest → PullRequest)
    (hid : ∀ q, (f q).ID = q.ID) :
    (l.map f).find? (fun q => q.ID = k) = (l.find? (fun q => q.ID = k)).map f := by
  induction l with
  | nil => rfl
  | cons a l ih =>
      by_cases ha : a.ID = k
      · simp [List.find?_cons, hid, ha]
      · simp [List.find?_cons, hid, ha, ih]

/-- An update addressed by key on a table with unique keys: the rows returned and the
row found under the key afterwards. -/
theorem sqlUpdate_key (l : List PullRequest) (k : String) (p : PullRequest)
    (cond : PullRequest → Bool) (set : PullRequest → PullRequest)
    (hnd : (l.map (fun q => q.ID)).Nodup)
    (hf : l.find? (fun q => q.ID = k) = some p) (hc : ∀ q, cond q = true → q.ID = k)
    (hid : ∀ q, (set q).ID = q.ID) :
    (sqlUpdate l cond set).2 = (if cond p then [set p] else [])
      ∧ (sqlUpdate l cond set).1.find? (fun q => q.ID = k)
          = some (if cond p then set p else p) := by
  constructor
  · show (l.filter cond).map set = _
    rw [filter_key l k p cond hnd hf hc]
    split <;> rfl
  · show (l.map (fun r => if cond r then set r else r)).find? _ = _
    rw [find_map_key l k _ (by intro q; split <;> simp [hid]), hf]
    rfl

theorem sqlUpdate_ids (l : List PullRequest) (cond : PullRequest → Bool)
    (set : PullRequest → PullRequest) (hid : ∀ q, (set q).ID = q.ID) :
    (sqlUpdate l cond set).1.map (fun q => q.ID) = l.map (fun q => q.ID) := by
  show (l.map (fun r => if cond r then set r else r)).map _ = _
  rw [List.map_map]
  apply List.map_congr_left
  intro q _
  show (if cond q then set q else q).ID = q.ID
  split
  · exact hid q
  · rfl

theorem reassignWhere_key (prID oldUserID : String) (q : PullRequest)
    (h : repo.reassignWhere prID oldUserID q = true) :
    q.ID = prID ∧ q.Status = "OPEN" ∧ oldUserID ∈ q.AssignedReviewers := by
  simpa [repo.reassignWhere, and_assoc] using h

theorem mergeWhere_iff (prID : String) (q : PullRequest) :
    repo.mergeWhere prID q = true ↔ q.ID = prID ∧ q.Status = "OPEN" := by
  simp [repo.mergeWhere]

/-- A row returned by `RandomActiveMemberFromTeam` is the id of an active user of the team,
other than the excluded one. -/
theorem randomActiveMember_ok (pick : Nat) (s : Store) (teamName excludeID userID : String)
    (h : repo.RandomActiveMemberFromTeam pick s teamName excludeID = .ok userID) :
    ∃ u ∈ s.users, u.ID = userID ∧ u.TeamName = teamName ∧ u.IsActive = true
      ∧ userID ≠ excludeID := by
  unfold repo.RandomActiveMemberFromTeam at h
  cases hrow : (repo.activeExcluding s teamName excludeID)[pick %
      (repo.activeExcluding s teamName excludeID).length]? with
  | none => simp [hrow] at h
  | some row =>
      simp only [hrow, Except.ok.injEq] at h
      subst h
      have hmem := List.getElem?_mem hrow
      unfold repo.activeExcluding at hmem
      obtain ⟨u, hu, hid⟩ := List.mem_map.mp hmem
      rw [List.mem_filter] at hu
      have hcond : (u.TeamName = teamName ∧ u.IsActive = true) ∧ u.ID ≠ excludeID := by
        simpa using hu.2
      exact ⟨u, hu.1, hid, hcond.1.1, hcond.1.2, hid ▸ hcond.2⟩

theorem any_invalid_member_iff (ms : List Member) :
    ms.any (fun m => decide (m.ID = "") || decide (m.Username = "")) = true
      ↔ ∃ m ∈ ms, m.ID = "" ∨ m.Username = "" := by
  simp [List.any_eq_true]

theorem invalidTeam_iff (team : Team) :
    invalidTeam team ↔ (team.Name = "" ∨ team.Members.length = 0
      ∨ team.Members.any (fun m => decide (m.ID = "") || decide (m.Username = "")) = true) := by
  unfold invalidTeam
  rw [any_invalid_member_iff, List.length_eq_zero]

/-! ## The store left by each use case, and the key discipline of reachable stores -/

/-- The store left by `CreateTeam`: untouched, or the upsert of a valid team. -/
theorem createTeam_store_cases (s : Store) (team : Team) :
    (prService.CreateTeam s team).store = s
      ∨ (¬ invalidTeam team
          ∧ (prService.CreateTeam s team).store = repo.CreateOrUpdateTeam s team) := by
  unfold prService.CreateTeam
  split
  · exact Or.inl rfl
  · rename_i hname
    split
    · exact Or.inl rfl
    · rename_i hlen
      split
      · exact Or.inl rfl
      · rename_i hany
        split
        · exact Or.inl rfl
        · split
          · exact Or.inl rfl
          · refine Or.inr ⟨?_, ?_⟩
            · rw [invalidTeam_iff]
              rintro (h | h | h)
              · exact hname h
              · exact hlen h
              · exact hany h
            · dsimp only
              split <;> rfl

theorem repo_setUserActive_store (s : Store) (userID : String) (isActive : Bool) :
    (repo.SetUserActive s userID isActive).2
      = { s with users := (s.users.map
            (fun u => if u.ID = userID then { u with IsActive := isActive } else u)) } := by
  simp only [repo.SetUserActive, sqlUpdate]
  split <;> simp

theorem repo_mergePR_store (now : Nat) (s : Store) (prID : String) :
    (repo.MergePR now s prID).2
      = { s with pull_requests := (s.pull_requests.map
            (fun r => if repo.mergeWhere prID r then repo.mergeSet now r else r)) } := by
  simp only [repo.MergePR, sqlUpdate]
  split <;> rfl

theorem repo_reassignReviewer_store (s : Store) (prID oldUserID newUserID : String) :
    (repo.ReassignReviewer s prID oldUserID newUserID).2
      = { s with pull_requests := (s.pull_requests.map
            (fun r => if repo.reassignWhere prID oldUserID r
              then repo.reassignSet oldUserID newUserID r else r)) } := by
  simp only [repo.ReassignReviewer, sqlUpdate]
  split <;> rfl

/-- The store left by `SetUserActive`: only the active flag of the rows with the given id
can differ. -/
theorem setUserActive_store_cases (s : Store) (userID : String) (isActive : Bool) :
    (prService.SetUserActive s userID isActive).store = s
      ∨ (prService.SetUserActive s userID isActive).store
          = { s with users := (s.users.map
                (fun u => if u.ID = userID then { u with IsActive := isActive } else u)) } := by
  rw [← repo_setUserActive_store]
  unfold prService.SetUserActive
  split
  · exact Or.inl rfl
  · right
    cases h : repo.SetUserActive s userID isActive with
    | mk res s1 => cases res <;> rfl

/-- The store left by `MergePR`: only rows selected by the update can differ. -/
theorem mergePR_store_cases (now : Nat) (s : Store) (prID : String) :
    (prService.MergePR now s prID).store = s
      ∨ (prService.MergePR now s prID).store
          = { s with pull_requests := (s.pull_requests.map
                (fun r => if repo.mergeWhere prID r then repo.mergeSet now r else r)) } := by
  rw [← repo_mergePR_store]
  unfold prService.MergePR
  split
  · exact Or.inl rfl
  · right
    cases h : repo.MergePR now s prID with
    | mk res s1 => cases res <;> rfl

/-- The store left by `ReassignReviewer`: untouched, or the rows selected by the update
carry an active user's id in place of the outgoing reviewer. -/
theorem reassignReviewer_store_cases (pick : Nat) (s : Store) (prID oldUserID : String) :
    (prService.ReassignReviewer pick s prID oldUserID).store = s
      ∨ ∃ newUserID, (∃ u ∈ s.users, u.ID = newUserID ∧ u.IsActive = true)
          ∧ (prService.ReassignReviewer pick s prID oldUserID).store
            = { s with pull_requests := (s.pull_requests.map
                (fun r => if repo.reassignWhere prID oldUserID r
                  then repo.reassignSet oldUserID newUserID r else r)) } := by
  unfold prService.ReassignReviewer
  split
  · exact Or.inl rfl
  · split
    · exact Or.inl rfl
    · split
      · exact Or.inl rfl
      · split
        · exact Or.inl rfl
        · split
          · exact Or.inl rfl
          · rename_i teamName _
            split
            · exact Or.inl rfl
            · rename_i newUserID hrand
              right
              refine ⟨newUserID, ?_, ?_⟩
              · obtain ⟨u, hu, h1, _, h3, _⟩ :=
                  randomActiveMember_ok pick s teamName oldUserID newUserID hrand
                exact ⟨u, hu, h1, h3⟩
              · rw [← repo_reassignReviewer_store]
                cases h : repo.ReassignReviewer s prID oldUserID newUserID with
                | mk res s1 => cases res <;> rfl

/-- The store left by `CreatePR`: untouched, or one row appended under a fresh non-empty
id, status OPEN, no merge time, reviewers taken from the shuffled candidates. -/
theorem createPR_store_cases (shuffle : List String → List String) (now : Nat) (s : Store)
    (pr : PullRequest) :
    (prService.CreatePR shuffle now s pr).store = s
      ∨ (pr.ID ≠ "" ∧ (∀ p ∈ s.pull_requests, p.ID ≠ pr.ID)
          ∧ ∃ teamName reviewers, repo.GetUserTeam s pr.AuthorID = .ok teamName
            ∧ reviewers.length ≤ 2
            ∧ (∀ r ∈ reviewers, r ∈ shuffle (repo.activeExcluding s teamName pr.AuthorID))
            ∧ (prService.CreatePR shuffle now s pr).store
              = { s with pull_requests := s.pull_requests ++
                  [⟨pr.ID, pr.Name, pr.AuthorID, "OPEN", reviewers, some now, none⟩] }) := by
  unfold prService.CreatePR
  split
  · exact Or.inl rfl
  · rename_i hv
    split
    · exact Or.inl rfl
    · rename_i teamName hteam
      dsimp only
      split
      · exact Or.inl rfl
      · unfold repo.CreatePR
        dsimp only
        by_cases hany : s.pull_requests.any (fun p => decide (p.ID = pr.ID)) = true
        · left
          simp [hany]
        · right
          have hfresh : ∀ p ∈ s.pull_requests, p.ID ≠ pr.ID := by
            intro p hp hpid
            exact hany (List.any_eq_true.mpr ⟨p, hp, by simpa using hpid⟩)
          refine ⟨fun h => hv (Or.inl h), hfresh, teamName,
            (if (shuffle (repo.activeExcluding s teamName pr.AuthorID)).length > 2
              then (shuffle (repo.activeExcluding s teamName pr.AuthorID)).take 2
              else shuffle (repo.activeExcluding s teamName pr.AuthorID)),
            hteam, ?_, ?_, ?_⟩
          · split
            · rw [List.length_take]; omega
            · omega
          · intro r hr
            split at hr
            · exact List.mem_of_mem_take hr
            · exact hr
          · simp only [hany, if_false, Bool.false_eq_true]
            rfl

theorem upsertUser_ids (users : List User) (v : User) (hus : ∀ u ∈ users, u.ID ≠ "")
    (hv : v.ID ≠ "") : ∀ u ∈ repo.upsertUser users v, u.ID ≠ "" := by
  intro u hu
  unfold repo.upsertUser at hu
  split at hu
  · obtain ⟨x, hx, hxu⟩ := List.mem_map.mp hu
    by_cases hc : x.ID = v.ID
    · rw [if_pos hc] at hxu
      exact hxu ▸ hv
    · rw [if_neg hc] at hxu
      exact hxu ▸ hus x hx
  · rcases List.mem_append.mp hu with h | h
    · exact hus u h
    · rw [List.mem_singleton] at h
      exact h ▸ hv

theorem createOrUpdateTeam_ids (s : Store) (team : Team)
    (hus : ∀ u ∈ s.users, u.ID ≠ "") (hms : ∀ m ∈ team.Members, m.ID ≠ "") :
    ∀ u ∈ (repo.CreateOrUpdateTeam s team).users, u.ID ≠ "" := by
  show ∀ u ∈ team.Members.foldl
    (fun us m => repo.upsertUser us ⟨m.ID, m.Username, team.Name, m.IsActive⟩) s.users, _
  generalize s.users = users at hus
  generalize team.Members = ms at hms
  induction ms generalizing users with
  | nil => exact hus
  | cons m ms ih =>
      rw [List.foldl_cons]
      apply ih
      · exact upsertUser_ids users _ hus (hms m (List.mem_cons_self m ms))
      · exact fun x hx => hms x (List.mem_cons_of_mem m hx)

/-- Every use case keeps the key discipline of the store. -/
theorem keyed_createTeam (s : Store) (team : Team) (h : s.Keyed) :
    (prService.CreateTeam s team).store.Keyed := by
  rcases createTeam_store_cases s team with h1 | ⟨hvalid, h1⟩
  · rw [h1]; exact h
  · rw [h1]
    refine ⟨h.1, h.2.1, ?_, h.2.2.2⟩
    apply createOrUpdateTeam_ids s team h.2.2.1
    intro m hm hid
    exact hvalid (Or.inr (Or.inr ⟨m, hm, Or.inl hid⟩))

theorem keyed_setUserActive (s : Store) (userID : String) (isActive : Bool) (h : s.Keyed) :
    (prService.SetUserActive s userID isActive).store.Keyed := by
  rcases setUserActive_store_cases s userID isActive with h1 | h1
  · rw [h1]; exact h
  · rw [h1]
    refine ⟨h.1, h.2.1, ?_, h.2.2.2⟩
    intro u hu
    obtain ⟨x, hx, hxu⟩ := List.mem_map.mp hu
    have hid : u.ID = x.ID := by
      rw [← hxu]; split <;> rfl
    rw [hid]
    exact h.2.2.1 x hx

theorem keyed_createPR (shuffle : List String → List String)
    (hperm : ∀ l, (shuffle l).Perm l) (now : Nat) (s : Store) (pr : PullRequest)
    (h : s.Keyed) : (prService.CreatePR shuffle now s pr).store.Keyed := by
  rcases createPR_store_cases shuffle now s pr with h1 | ⟨hid, hfresh, _, revs, _, _, hrev, h1⟩
  · rw [h1]; exact h
  · rw [h1]
    refine ⟨?_, ?_, h.2.2.1, ?_⟩
    · show ((s.pull_requests ++ _).map _).Nodup
      rw [List.map_append, List.nodup_append]
      refine ⟨h.1, by simp, ?_⟩
      intro a ha hb
      obtain ⟨p, hp, hpa⟩ := List.mem_map.mp ha
      have : a = pr.ID := by simpa using hb
      exact hfresh p hp (hpa.trans this)
    · intro p hp
      rcases List.mem_append.mp hp with hp | hp
      · exact h.2.1 p hp
      · rw [List.mem_singleton] at hp
        rw [hp]; exact hid
    · intro p hp r hr
      rcases List.mem_append.mp hp with hp | hp
      · exact h.2.2.2 p hp r hr
      · rw [List.mem_singleton] at hp
        rw [hp] at hr
        have hr1 := (hperm _).mem_iff.mp (hrev r hr)
        obtain ⟨u, hu, hur⟩ := activeExcluding_mem s _ _ r hr1
        exact hur ▸ h.2.2.1 u hu

theorem keyed_map (s : Store) (f : PullRequest → PullRequest) (h : s.Keyed)
    (hid : ∀ q, (f q).ID = q.ID)
    (hrev : ∀ q ∈ s.pull_requests, ∀ r ∈ (f q).AssignedReviewers, r ≠ "") :
    Store.Keyed { s with pull_requests := s.pull_requests.map f } := by
  refine ⟨?_, ?_, h.2.2.1, ?_⟩
  · show ((s.pull_requests.map f).map _).Nodup
    rw [List.map_map]
    have : (fun q => q.ID) ∘ f = fun q => q.ID := funext hid
    rw [this]
    exact h.1
  · intro p hp
    obtain ⟨q, hq, hqp⟩ := List.mem_map.mp hp
    rw [← hqp, hid]
    exact h.2.1 q hq
  · intro p hp r hr
    obtain ⟨q, hq, hqp⟩ := List.mem_map.mp hp
    rw [← hqp] at hr
    exact hrev q hq r hr

theorem keyed_mergePR (now : Nat) (s : Store) (prID : String) (h : s.Keyed) :
    (prService.MergePR now s prID).store.Keyed := by
  rcases mergePR_store_cases now s prID with h1 | h1
  · rw [h1]; exact h
  · rw [h1]
    apply keyed_map s _ h
    · intro q; split <;> rfl
    · intro q hq r hr
      have : (if repo.mergeWhere prID q = true then repo.mergeSet now q else q).AssignedReviewers
          = q.AssignedReviewers := by split <;> rfl
      rw [this] at hr
      exact h.2.2.2 q hq r hr

theorem keyed_reassignReviewer (pick : Nat) (s : Store) (prID oldUserID : String)
    (h : s.Keyed) : (prService.ReassignReviewer pick s prID oldUserID).store.Keyed := by
  rcases reassignReviewer_store_cases pick s prID oldUserID with h1 | ⟨new, ⟨u, hu, hun, _⟩, h1⟩
  · rw [h1]; exact h
  · rw [h1]
    apply keyed_map s _ h
    · intro q; split <;> rfl
    · intro q hq r hr
      split at hr
      · simp only [repo.reassignSet, array_replace] at hr
        obtain ⟨x, hx, hxr⟩ := List.mem_map.mp hr
        by_cases hc : x = oldUserID
        · rw [if_pos hc] at hxr
          rw [← hxr, ← hun]
          exact h.2.2.1 u hu
        · rw [if_neg hc] at hxr
          exact hxr ▸ h.2.2.2 q hq x hx
      · exact h.2.2.2 q hq r hr

/-- Every reachable store obeys the key discipline: the pull request ids are pairwise
different and non-empty, and so are the ids of users and reviewers. -/
theorem reachable_keyed (s : Store) (h : Reachable s) : s.Keyed := by
  induction h with
  | empty => exact ⟨List.nodup_nil, by simp [Store.empty], by simp [Store.empty],
      by simp [Store.empty]⟩
  | createTeam s team _ ih => exact keyed_createTeam s team ih
  | setUserActive s userID isActive _ ih => exact keyed_setUserActive s userID isActive ih
  | createPR s shuffle now pr _ hperm ih => exact keyed_createPR shuffle hperm now s pr ih
  | mergePR s now prID _ ih => exact keyed_mergePR now s prID ih
  | reassignReviewer s pick prID oldUserID _ ih =>
      exact keyed_reassignReviewer pick s prID oldUserID ih

/-- The example store is reachable: it is left by twelve calls on the empty store. -/
theorem exampleStore_reachable : Reachable exampleStore := by
  have h1 := Reachable.createTeam _
    ⟨"core", [⟨"A", "alice", true⟩, ⟨"B", "bob", true⟩, ⟨"C", "carol", false⟩,
      ⟨"G", "gil", false⟩, ⟨"I", "ida", false⟩, ⟨"J", "jon", false⟩]⟩ Reachable.empty
  have h2 := Reachable.createPR _ id 1 ⟨"pr1", "fix", "A", "", [], none, none⟩ h1
    (fun l => List.Perm.refl l)
  have h3 := Reachable.mergePR _ 2 "pr1" h2
  have h4 := Reachable.createPR _ id 3 ⟨"pr2", "feature", "A", "", [], none, none⟩ h3
    (fun l => List.Perm.refl l)
  have h5 := Reachable.createTeam _ ⟨"solo", [⟨"D", "dan", true⟩, ⟨"E", "eve", true⟩]⟩ h4
  have h6 := Reachable.createPR _ id 4 ⟨"pr3", "cleanup", "E", "", [], none, none⟩ h5
    (fun l => List.Perm.refl l)
  have h7 := Reachable.setUserActive _ "E" false h6
  have h8 := Reachable.setUserActive _ "G" true h7
  have h9 := Reachable.createPR _ id 5 ⟨"pr4", "docs", "A", "", [], none, none⟩ h8
    (fun l => List.Perm.refl l)
  have h10 := Reachable.createTeam _ ⟨"ops", [⟨"G", "gil", true⟩, ⟨"H", "hal", true⟩]⟩ h9
  have h11 := Reachable.setUserActive _ "I" true h10
  have h12 := Reachable.setUserActive _ "J" true h11
  exact h12

/-- In a store with the key discipline a stored pull request has a non-empty id and
non-empty reviewer ids. -/
theorem keyed_getPR (s : Store) (prID : String) (pr : PullRequest) (hs : s.Keyed)
    (hget : repo.GetPR s prID = .ok pr) :
    prID ≠ "" ∧ ∀ r ∈ pr.AssignedReviewers, r ≠ "" := by
  obtain ⟨hmem, hid⟩ := getPR_ok_mem s prID pr hget
  exact ⟨hid ▸ hs.2.1 pr hmem, hs.2.2.2 pr hmem⟩

/-! ## Facts about single use cases -/

/-- What a successful `ReassignReviewer` went through. -/
theorem reassign_ok_inv (pick : Nat) (s : Store) (prID oldUserID newUserID : String)
    (pr1 : PullRequest)
    (h : (prService.ReassignReviewer pick s prID oldUserID).result = .ok (pr1, newUserID)) :
    prID ≠ "" ∧ oldUserID ≠ "" ∧ ∃ pr teamName,
      repo.GetPR s prID = .ok pr ∧ pr.Status ≠ "MERGED" ∧ oldUserID ∈ pr.AssignedReviewers
      ∧ repo.GetUserTeam s oldUserID = .ok teamName
      ∧ repo.RandomActiveMemberFromTeam pick s teamName oldUserID = .ok newUserID
      ∧ (repo.ReassignReviewer s prID oldUserID newUserID).1 = .ok pr1
      ∧ (prService.ReassignReviewer pick s prID oldUserID).store
          = (repo.ReassignReviewer s prID oldUserID newUserID).2 := by
  unfold prService.ReassignReviewer at h ⊢
  by_cases hv : prID = "" ∨ oldUserID = ""
  · simp [hv] at h
  · have hv1 := not_or.mp hv
    refine ⟨hv1.1, hv1.2, ?_⟩
    simp only [hv, if_false] at h ⊢
    cases hget : repo.GetPR s prID with
    | error e => simp [hget] at h
    | ok pr =>
      simp only [hget] at h ⊢
      by_cases hst : pr.Status = "MERGED"
      · simp [hst] at h
      · simp only [hst, if_false] at h ⊢
        cases hany : pr.AssignedReviewers.any (fun r => decide (r = oldUserID)) with
        | false => simp [hany] at h
        | true =>
          simp only [hany, Bool.not_true, Bool.false_eq_true, if_false] at h ⊢
          have hmem : oldUserID ∈ pr.AssignedReviewers := by
            rw [List.any_eq_true] at hany
            obtain ⟨r, hr, hreq⟩ := hany
            have : r = oldUserID := by simpa using hreq
            exact this ▸ hr
          cases hteam : repo.GetUserTeam s oldUserID with
          | error e => simp [hteam] at h
          | ok teamName =>
            simp only [hteam] at h ⊢
            cases hrand : repo.RandomActiveMemberFromTeam pick s teamName oldUserID with
            | error e => simp [hrand] at h
            | ok newID =>
              simp only [hrand] at h ⊢
              cases hre : repo.ReassignReviewer s prID oldUserID newID with
              | mk res s1 =>
                cases res with
                | error e => simp [hre] at h
                | ok pr2 =>
                  simp only [hre, Except.ok.injEq, Prod.mk.injEq] at h ⊢
                  obtain ⟨h1, h2⟩ := h
                  subst h1 h2
                  exact ⟨pr, teamName, rfl, hst, hmem, rfl, hrand, by rw [hre], by rw [hre]⟩

/-- Merging a pull request that is not open changes nothing and returns the stored row. -/
theorem merge_not_open (now : Nat) (s : Store) (prID : String) (pr : PullRequest)
    (hid : prID ≠ "") (hkey : (s.pull_requests.map (fun q => q.ID)).Nodup)
    (hget : repo.GetPR s prID = .ok pr) (hst : pr.Status ≠ "OPEN") :
    (prService.MergePR now s prID).result = .ok pr
      ∧ (prService.MergePR now s prID).store = s := by
  have hfind := (getPR_ok_iff s prID pr).mp hget
  have hnone : ∀ r ∈ s.pull_requests, repo.mergeWhere prID r = false := by
    intro r hr
    cases hc : repo.mergeWhere prID r with
    | false => rfl
    | true =>
        have h1 := (mergeWhere_iff prID r).mp hc
        have h2 := find_key_unique s.pull_requests prID pr hkey hfind r hr h1.1
        exact absurd (h2 ▸ h1.2) hst
  have hupd := sqlUpdate_none s.pull_requests (repo.mergeWhere prID) (repo.mergeSet now) hnone
  simp [prService.MergePR, repo.MergePR, hid, hupd, hget]

/-- Merging an open pull request returns and stores the row with status MERGED and the
merge time stamp set. -/
theorem merge_open (now : Nat) (s : Store) (prID : String) (pr : PullRequest)
    (hid : prID ≠ "") (hkey : (s.pull_requests.map (fun q => q.ID)).Nodup)
    (hget : repo.GetPR s prID = .ok pr) (hst : pr.Status = "OPEN") :
    (prService.MergePR now s prID).result = .ok (repo.mergeSet now pr)
      ∧ repo.GetPR (prService.MergePR now s prID).store prID = .ok (repo.mergeSet now pr)
      ∧ ((prService.MergePR now s prID).store.pull_requests.map (fun q => q.ID)).Nodup := by
  have hfind := (getPR_ok_iff s prID pr).mp hget
  have hpid := (getPR_ok_mem s prID pr hget).2
  obtain ⟨hret, hafter⟩ := sqlUpdate_key s.pull_requests prID pr
    (repo.mergeWhere prID) (repo.mergeSet now) hkey hfind
    (fun q hq => ((mergeWhere_iff prID q).mp hq).1) (fun _ => rfl)
  have hc : repo.mergeWhere prID pr = true := (mergeWhere_iff prID pr).mpr ⟨hpid, hst⟩
  simp only [hc, if_true] at hret hafter
  have hids := sqlUpdate_ids s.pull_requests (repo.mergeWhere prID) (repo.mergeSet now)
    (fun _ => rfl)
  refine ⟨?_, ?_, ?_⟩
  · simp [prService.MergePR, repo.MergePR, hid, hret]
  · rw [getPR_ok_iff]
    simpa [prService.MergePR, repo.MergePR, hid, hret] using hafter
  · simpa [prService.MergePR, repo.MergePR, hid, hret, hids] using hkey

/-! ## Creation of a pull request: reviewers (C1) -/

/-- C1. A `CreatePR` call with non-empty id, name and author, whose author is an existing
user of team `teamName` and whose id is not yet stored, succeeds whatever permutation the
shuffle applies; the pull request returned (the row stored under the id, status OPEN) has
exactly `min N 2` reviewers, `N` being the number of active teammates of the author; every
reviewer is an active user of the author's team; the author is not a reviewer. -/
theorem createPR_assigns_reviewers (shuffle : List String → List String)
    (hperm : ∀ l, (shuffle l).Perm l) (now : Nat) (s : Store) (pr : PullRequest)
    (teamName : String) (hid : pr.ID ≠ "") (hname : pr.Name ≠ "")
    (hauthor : pr.AuthorID ≠ "") (hteam : repo.GetUserTeam s pr.AuthorID = .ok teamName)
    (hnew : ∀ p ∈ s.pull_requests, p.ID ≠ pr.ID) :
    ∃ created, (prService.CreatePR shuffle now s pr).result = .ok created
      ∧ repo.GetPR (prService.CreatePR shuffle now s pr).store pr.ID = .ok created
      ∧ created.Status = "OPEN"
      ∧ created.AssignedReviewers.length = min (activeTeammateCount s teamName pr.AuthorID) 2
      ∧ (∀ r ∈ created.AssignedReviewers,
          ∃ u ∈ s.users, u.ID = r ∧ u.TeamName = teamName ∧ u.IsActive = true)
      ∧ pr.AuthorID ∉ created.AssignedReviewers := by
  have habs := getPR_absent s pr.ID hnew
  have hany : s.pull_requests.any (fun p => decide (p.ID = pr.ID)) = false := by
    rw [List.any_eq_false]
    intro p hp
    simpa using hnew p hp
  have hfind : s.pull_requests.find? (fun p => decide (p.ID = pr.ID)) = none := by
    rw [List.find?_eq_none]
    intro p hp
    simpa using hnew p hp
  have hmem : ∀ r ∈ shuffle (repo.activeExcluding s teamName pr.AuthorID),
      ∃ u ∈ s.users, (u.ID = r ∧ u.TeamName = teamName ∧ u.IsActive = true)
        ∧ u.ID ≠ pr.AuthorID := by
    intro r hr
    rw [(hperm _).mem_iff] at hr
    obtain ⟨u, hu, hur⟩ := List.mem_map.mp hr
    rw [List.mem_filter] at hu
    have hc : (u.TeamName = teamName ∧ u.IsActive = true) ∧ u.ID ≠ pr.AuthorID := by
      simpa using hu.2
    exact ⟨u, hu.1, ⟨hur, hc.1.1, hc.1.2⟩, hc.2⟩
  have hlen : (shuffle (repo.activeExcluding s teamName pr.AuthorID)).length
      = activeTeammateCount s teamName pr.AuthorID := by
    rw [(hperm _).length_eq]
    simp [repo.activeExcluding, activeTeammateCount, List.countP_eq_length_filter]
  refine ⟨⟨pr.ID, pr.Name, pr.AuthorID, "OPEN",
    if (shuffle (repo.activeExcluding s teamName pr.AuthorID)).length > 2
      then (shuffle (repo.activeExcluding s teamName pr.AuthorID)).take 2
      else shuffle (repo.activeExcluding s teamName pr.AuthorID), some now, none⟩,
    ?_, ?_, rfl, ?_, ?_, ?_⟩
  · simp [prService.CreatePR, hid, hname, hauthor, hteam, habs, repo.CreatePR, hany,
      repo.GetPR, repo.GetActiveMembersExcluding, hfind]
  · simp [prService.CreatePR, hid, hname, hauthor, hteam, habs, repo.CreatePR, hany,
      repo.GetPR, repo.GetActiveMembersExcluding, hfind]
  · show (if _ then _ else _ : List String).length = _
    rw [← hlen]
    split
    · rw [List.length_take]; omega
    · omega
  · intro r hr
    have hr1 : r ∈ shuffle (repo.activeExcluding s teamName pr.AuthorID) := by
      change r ∈ (if _ then _ else _ : List String) at hr
      split at hr
      · exact List.mem_of_mem_take hr
      · exact hr
    obtain ⟨u, hu, h1, _⟩ := hmem r hr1
    exact ⟨u, hu, h1⟩
  · intro hr
    have hr1 : pr.AuthorID ∈ shuffle (repo.activeExcluding s teamName pr.AuthorID) := by
      change pr.AuthorID ∈ (if _ then _ else _ : List String) at hr
      split at hr
      · exact List.mem_of_mem_take hr
      · exact hr
    obtain ⟨u, _, h1, h2⟩ := hmem _ hr1
    exact h2 h1.1

/-- Instance on the example store: A has three active teammates (B, I, J; C is inactive),
the shuffle reverses the candidate list, and the new pull request gets two reviewers. -/
theorem createPR_assigns_reviewers_witness :
    ∃ created,
      (prService.CreatePR List.reverse 9 exampleStore
          ⟨"pr9", "new", "A", "", [], none, none⟩).result = .ok created
      ∧ repo.GetPR (prService.CreatePR List.reverse 9 exampleStore
          ⟨"pr9", "new", "A", "", [], none, none⟩).store "pr9" = .ok created
      ∧ created.Status = "OPEN"
      ∧ created.AssignedReviewers.length = min (activeTeammateCount exampleStore "core" "A") 2
      ∧ (∀ r ∈ created.AssignedReviewers,
          ∃ u ∈ exampleStore.users, u.ID = r ∧ u.TeamName = "core" ∧ u.IsActive = true)
      ∧ "A" ∉ created.AssignedReviewers :=
  createPR_assigns_reviewers List.reverse (fun l => List.reverse_perm l) 9 exampleStore
    ⟨"pr9", "new", "A", "", [], none, none⟩ "core" (by decide) (by decide) (by decide)
    (by rfl) (by decide)

/-! ## Reassignment: replacement in place (C2) -/

/-- C2. Whenever `ReassignReviewer` succeeds on a store with the key discipline (every
reachable store has it), the pull request was OPEN and held `oldUserID` in its reviewer
list before the call; the returned reviewer list has the length of the old one, holds the
new reviewer wherever `oldUserID` stood and the old entry at every other position; the
returned pull request is the one stored afterwards. -/
theorem reassign_replaces_in_place (pick : Nat) (s : Store)
    (prID oldUserID newUserID : String) (pr1 : PullRequest) (hs : s.Keyed)
    (h : (prService.ReassignReviewer pick s prID oldUserID).result = .ok (pr1, newUserID)) :
    ∃ pr, repo.GetPR s prID = .ok pr ∧ pr.Status = "OPEN"
      ∧ oldUserID ∈ pr.AssignedReviewers
      ∧ pr1.AssignedReviewers.length = pr.AssignedReviewers.length
      ∧ (∀ (i : Nat) (r : String), pr.AssignedReviewers[i]? = some r →
          pr1.AssignedReviewers[i]? = some (if r = oldUserID then newUserID else r))
      ∧ repo.GetPR (prService.ReassignReviewer pick s prID oldUserID).store prID
          = .ok pr1 := by
  obtain ⟨_, _, pr, teamName, hget, _, hmem, _, _, hre, hstore⟩ :=
    reassign_ok_inv pick s prID oldUserID newUserID pr1 h
  have hfind := (getPR_ok_iff s prID pr).mp hget
  obtain ⟨hret, hafter⟩ := sqlUpdate_key s.pull_requests prID pr
    (repo.reassignWhere prID oldUserID) (repo.reassignSet oldUserID newUserID) hs.1 hfind
    (fun q hq => (reassignWhere_key prID oldUserID q hq).1) (fun _ => rfl)
  cases hc : repo.reassignWhere prID oldUserID pr with
  | false =>
      simp only [repo.ReassignReviewer, hret, hc, Bool.false_eq_true, if_false] at hre
      exact absurd hre (by simp)
  | true =>
      simp only [repo.ReassignReviewer, hret, hc, if_true, Except.ok.injEq] at hre
      simp only [hc, if_true] at hafter
      have hst := (reassignWhere_key prID oldUserID pr hc).2.1
      refine ⟨pr, hget, hst, hmem, ?_, ?_, ?_⟩
      · rw [← hre]
        simp [repo.reassignSet, array_replace]
      · intro i r hi
        rw [← hre]
        simp [repo.reassignSet, array_replace, List.getElem?_map, hi]
      · rw [hstore, getPR_ok_iff, ← hre]
        simpa only [repo.ReassignReviewer, hret, hc, if_true] using hafter

/-- Instance on the example store: G, second reviewer of `pr4`, is replaced by H; the
first reviewer B stays. -/
theorem reassign_replaces_in_place_witness :
    ∃ pr, repo.GetPR exampleStore "pr4" = .ok pr ∧ pr.Status = "OPEN"
      ∧ "G" ∈ pr.AssignedReviewers
      ∧ [ "B", "H" ].length = pr.AssignedReviewers.length
      ∧ (∀ (i : Nat) (r : String), pr.AssignedReviewers[i]? = some r →
          [ "B", "H" ][i]? = some (if r = "G" then "H" else r))
      ∧ repo.GetPR (prService.ReassignReviewer 0 exampleStore "pr4" "G").store "pr4"
          = .ok ⟨"pr4", "docs", "A", "OPEN", ["B", "H"], some 5, none⟩ :=
  reassign_replaces_in_place 0 exampleStore "pr4" "G" "H"
    ⟨"pr4", "docs", "A", "OPEN", ["B", "H"], some 5, none⟩
    (reachable_keyed exampleStore exampleStore_reachable) (by rfl)

/-! ## Reassignment on a merged pull request (C3) -/

/-- C3. On a store with the key discipline (every reachable store has it), reassignment
on a stored pull request whose status is MERGED fails with PR_MERGED for every non-empty
reviewer id, present in the reviewer list or not, and the store is unchanged. -/
theorem reassign_merged_rejected (pick : Nat) (s : Store) (prID oldUserID : String)
    (pr : PullRequest) (hs : s.Keyed) (hold : oldUserID ≠ "")
    (hget : repo.GetPR s prID = .ok pr) (hst : pr.Status = "MERGED") :
    (prService.ReassignReviewer pick s prID oldUserID).result
        = .error (GoError.errorString "usecase.go:149" "PR_MERGED")
      ∧ (prService.ReassignReviewer pick s prID oldUserID).store = s := by
  have hid := (keyed_getPR s prID pr hs hget).1
  simp [prService.ReassignReviewer, hid, hold, hget, hst]

/-- Instance on the example store: `pr1` is merged and B is its reviewer. -/
theorem reassign_merged_rejected_witness :
    (prService.ReassignReviewer 0 exampleStore "pr1" "B").result
        = .error (GoError.errorString "usecase.go:149" "PR_MERGED")
      ∧ (prService.ReassignReviewer 0 exampleStore "pr1" "B").store = exampleStore :=
  reassign_merged_rejected 0 exampleStore "pr1" "B"
    ⟨"pr1", "fix", "A", "MERGED", ["B"], some 1, some 2⟩
    (reachable_keyed exampleStore exampleStore_reachable) (by decide) (by rfl) (by rfl)

/-! ## Merge is idempotent (C4) -/

/-- C4. Merge is idempotent: on a store with the key discipline (every reachable store has
it) holding a pull request under the given id, OPEN or MERGED, two calls of `MergePR` in a
row both succeed, both results have status MERGED and the same `merged_at` (they are the
same row), whatever the clock shows at the two calls, and the second call leaves the store
unchanged. -/
theorem merge_idempotent (now1 now2 : Nat) (s : Store) (prID : String) (pr : PullRequest)
    (hs : s.Keyed) (hget : repo.GetPR s prID = .ok pr)
    (hst : pr.Status = "OPEN" ∨ pr.Status = "MERGED") :
    ∃ r1 r2, (prService.MergePR now1 s prID).result = .ok r1
      ∧ (prService.MergePR now2 (prService.MergePR now1 s prID).store prID).result = .ok r2
      ∧ r1.Status = "MERGED" ∧ r2.Status = "MERGED" ∧ r2.MergedAt = r1.MergedAt ∧ r2 = r1
      ∧ (prService.MergePR now2 (prService.MergePR now1 s prID).store prID).store
          = (prService.MergePR now1 s prID).store := by
  have hid := (keyed_getPR s prID pr hs hget).1
  have hkey := hs.1
  rcases hst with hopen | hmerged
  · obtain ⟨h1, h2, h3⟩ := merge_open now1 s prID pr hid hkey hget hopen
    obtain ⟨h4, h5⟩ := merge_not_open now2 (prService.MergePR now1 s prID).store prID
      (repo.mergeSet now1 pr) hid h3 h2 (by simp [repo.mergeSet])
    exact ⟨_, _, h1, h4, rfl, rfl, rfl, rfl, h5⟩
  · have hno : pr.Status ≠ "OPEN" := by rw [hmerged]; decide
    obtain ⟨h1, h2⟩ := merge_not_open now1 s prID pr hid hkey hget hno
    have hget2 : repo.GetPR (prService.MergePR now1 s prID).store prID = .ok pr := by
      rw [h2]; exact hget
    have hkey2 : ((prService.MergePR now1 s prID).store.pull_requests.map
        (fun q => q.ID)).Nodup := by rw [h2]; exact hkey
    obtain ⟨h4, h5⟩ := merge_not_open now2 (prService.MergePR now1 s prID).store prID pr
      hid hkey2 hget2 hno
    exact ⟨pr, pr, h1, h4, hmerged, hmerged, rfl, rfl, h5⟩

/-- Instance on the example store: `pr2` is open; merged at time 10 and again at time 20,
both results carry `merged_at = 10`. -/
theorem merge_idempotent_witness :
    ∃ r1 r2, (prService.MergePR 10 exampleStore "pr2").result = .ok r1
      ∧ (prService.MergePR 20 (prService.MergePR 10 exampleStore "pr2").store "pr2").result
          = .ok r2
      ∧ r1.Status = "MERGED" ∧ r2.Status = "MERGED" ∧ r2.MergedAt = r1.MergedAt ∧ r2 = r1
      ∧ (prService.MergePR 20 (prService.MergePR 10 exampleStore "pr2").store "pr2").store
          = (prService.MergePR 10 exampleStore "pr2").store :=
  merge_idempotent 10 20 exampleStore "pr2" ⟨"pr2", "feature", "A", "OPEN", ["B"], some 3, none⟩
    (reachable_keyed exampleStore exampleStore_reachable) (by rfl) (by decide)

/-! ## Reassignment without candidate (C5) -/

/-- C5. On a store with the key discipline (every reachable store has it) and an open
stored pull request whose reviewer list holds `oldUserID`, when the team of that user has
no active member besides the user, reassignment fails with the repository's no-candidate
error (wrapped by the use case), and the store, the reviewer list with it, is unchanged. -/
theorem reassign_no_candidate (pick : Nat) (s : Store) (prID oldUserID teamName : String)
    (pr : PullRequest) (hs : s.Keyed)
    (hget : repo.GetPR s prID = .ok pr) (hst : pr.Status = "OPEN")
    (hmem : oldUserID ∈ pr.AssignedReviewers)
    (hteam : repo.GetUserTeam s oldUserID = .ok teamName)
    (hnone : ∀ u ∈ s.users, u.TeamName = teamName → u.IsActive = true → u.ID = oldUserID) :
    (prService.ReassignReviewer pick s prID oldUserID).result
        = .error (GoError.wrapError "get new reviewer: no candidate"
            (GoError.errorString "repository.go:127" "no candidate"))
      ∧ (prService.ReassignReviewer pick s prID oldUserID).store = s
      ∧ repo.GetPR (prService.ReassignReviewer pick s prID oldUserID).store prID = .ok pr := by
  have hid := (keyed_getPR s prID pr hs hget).1
  have hold := (keyed_getPR s prID pr hs hget).2 oldUserID hmem
  have hany : pr.AssignedReviewers.any (fun r => decide (r = oldUserID)) = true := by
    rw [List.any_eq_true]
    exact ⟨oldUserID, hmem, by simp⟩
  have hrows := activeExcluding_nil s teamName oldUserID hnone
  have hrand : repo.RandomActiveMemberFromTeam pick s teamName oldUserID
      = .error (GoError.errorString "repository.go:127" "no candidate") := by
    simp [repo.RandomActiveMemberFromTeam, hrows]
  have hmsg : fmtErrorf "get new reviewer: "
      (GoError.errorString "repository.go:127" "no candidate")
      = GoError.wrapError "get new reviewer: no candidate"
          (GoError.errorString "repository.go:127" "no candidate") := by
    decide
  simp [prService.ReassignReviewer, hid, hold, hget, hst, hany, hteam, hrand, hmsg]

/-- Instance on the example store: D reviews `pr3` and is the only active member of team
`solo`. -/
theorem reassign_no_candidate_witness :
    (prService.ReassignReviewer 7 exampleStore "pr3" "D").result
        = .error (GoError.wrapError "get new reviewer: no candidate"
            (GoError.errorString "repository.go:127" "no candidate"))
      ∧ (prService.ReassignReviewer 7 exampleStore "pr3" "D").store = exampleStore
      ∧ repo.GetPR (prService.ReassignReviewer 7 exampleStore "pr3" "D").store "pr3"
          = .ok ⟨"pr3", "cleanup", "E", "OPEN", ["D"], some 4, none⟩ :=
  reassign_no_candidate 7 exampleStore "pr3" "D" "solo"
    ⟨"pr3", "cleanup", "E", "OPEN", ["D"], some 4, none⟩
    (reachable_keyed exampleStore exampleStore_reachable)
    (by rfl) (by rfl) (by decide) (by rfl) (by decide)

/-! ## Reassignment of a user who is not a reviewer (C6) -/

/-- C6. On a store with the key discipline (every reachable store has it) and an open
stored pull request, reassignment of a non-empty user id that is not
in the reviewer list fails with NOT_ASSIGNED and the store is unchanged, whatever the
users table holds for that id. -/
theorem reassign_not_assigned_rejected (pick : Nat) (s : Store) (prID oldUserID : String)
    (pr : PullRequest) (hs : s.Keyed) (hold : oldUserID ≠ "")
    (hget : repo.GetPR s prID = .ok pr) (hst : pr.Status = "OPEN")
    (hnot : oldUserID ∉ pr.AssignedReviewers) :
    (prService.ReassignReviewer pick s prID oldUserID).result
        = .error (GoError.errorString "usecase.go:160" "NOT_ASSIGNED")
      ∧ (prService.ReassignReviewer pick s prID oldUserID).store = s := by
  have hid := (keyed_getPR s prID pr hs hget).1
  have hany : pr.AssignedReviewers.any (fun r => decide (r = oldUserID)) = false := by
    rw [List.any_eq_false]
    intro r hr
    have : r ≠ oldUserID := fun h => hnot (h ▸ hr)
    simpa using this
  simp [prService.ReassignReviewer, hid, hold, hget, hst, hany]

/-- Instance on the example store: A is an active member of team `core`, which has other
active members, and is not a reviewer of `pr2`. -/
theorem reassign_not_assigned_rejected_witness :
    (prService.ReassignReviewer 0 exampleStore "pr2" "A").result
        = .error (GoError.errorString "usecase.go:160" "NOT_ASSIGNED")
      ∧ (prService.ReassignReviewer 0 exampleStore "pr2" "A").store = exampleStore :=
  reassign_not_assigned_rejected 0 exampleStore "pr2" "A"
    ⟨"pr2", "feature", "A", "OPEN", ["B"], some 3, none⟩
    (reachable_keyed exampleStore exampleStore_reachable) (by decide)
    (by rfl) (by rfl) (by decide)

/-! ## The new reviewer comes from the team of the outgoing one (C7) -/

/-- C7. After a successful `ReassignReviewer` the returned new reviewer differs from the
outgoing one and is the id of an active user whose team is the team resolved for the
outgoing reviewer (the author of the pull request plays no part). -/
theorem reassign_new_reviewer_from_old_team (pick : Nat) (s : Store)
    (prID oldUserID newUserID : String) (pr1 : PullRequest)
    (h : (prService.ReassignReviewer pick s prID oldUserID).result = .ok (pr1, newUserID)) :
    newUserID ≠ oldUserID ∧ ∃ teamName, repo.GetUserTeam s oldUserID = .ok teamName
      ∧ ∃ u ∈ s.users, u.ID = newUserID ∧ u.TeamName = teamName ∧ u.IsActive = true := by
  obtain ⟨_, _, pr, teamName, _, _, _, hteam, hrand, _, _⟩ :=
    reassign_ok_inv pick s prID oldUserID newUserID pr1 h
  obtain ⟨u, hu, h1, h2, h3, h4⟩ :=
    randomActiveMember_ok pick s teamName oldUserID newUserID hrand
  exact ⟨h4, teamName, hteam, u, hu, h1, h2, h3⟩

/-- Instance on the example store: reviewer G of `pr4` belongs to team `ops` while the
author A belongs to team `core`; the replacement H is an active member of `ops`. -/
theorem reassign_new_reviewer_from_old_team_witness :
    "H" ≠ "G" ∧ ∃ teamName, repo.GetUserTeam exampleStore "G" = .ok teamName
      ∧ ∃ u ∈ exampleStore.users, u.ID = "H" ∧ u.TeamName = teamName ∧ u.IsActive = true :=
  reassign_new_reviewer_from_old_team 0 exampleStore "pr4" "G" "H"
    ⟨"pr4", "docs", "A", "OPEN", ["B", "H"], some 5, none⟩ (by rfl)

/-! ## Creation under an id already stored (C8) -/

/-- C8, as stated, fails: `pr2` is stored, the call carries that id, a non-empty name and
a non-empty author id, and is rejected with the author-not-found error, not with
PR_EXISTS, because `ghost` is not a user. -/
theorem createPR_duplicate_unknown_author :
    repo.GetPR exampleStore "pr2" = .ok ⟨"pr2", "feature", "A", "OPEN", ["B"], some 3, none⟩
      ∧ (prService.CreatePR id 9 exampleStore
          ⟨"pr2", "again", "ghost", "", [], none, none⟩).result
        = .error (GoError.wrapError "get author team: user not found"
            (GoError.errorString "repository.go:112" "user not found"))
      ∧ (prService.CreatePR id 9 exampleStore
          ⟨"pr2", "again", "ghost", "", [], none, none⟩).result
        ≠ .error (GoError.errorString "usecase.go:113" "PR_EXISTS") := by
  decide

/-- C8, amended. On a store with the key discipline (every reachable store has it) that
holds a pull request under the given id, a `CreatePR` call with that id, non-empty name
and non-empty author id is rejected and the store is unchanged: with PR_EXISTS when the
author is an existing user, with the author-not-found error (checked first) when not. -/
theorem createPR_duplicate_rejected (shuffle : List String → List String) (now : Nat)
    (s : Store) (pr existing : PullRequest) (hs : s.Keyed) (hname : pr.Name ≠ "")
    (hauthor : pr.AuthorID ≠ "") (hget : repo.GetPR s pr.ID = .ok existing) :
    (prService.CreatePR shuffle now s pr).result
        = (match repo.GetUserTeam s pr.AuthorID with
          | .ok _ => .error (GoError.errorString "usecase.go:113" "PR_EXISTS")
          | .error err => .error (fmtErrorf "get author team: " err))
      ∧ (prService.CreatePR shuffle now s pr).store = s
      ∧ repo.GetPR (prService.CreatePR shuffle now s pr).store pr.ID = .ok existing := by
  have hid := (keyed_getPR s pr.ID existing hs hget).1
  cases hteam : repo.GetUserTeam s pr.AuthorID with
  | error err => simp [prService.CreatePR, hid, hname, hauthor, hteam, hget]
  | ok teamName => simp [prService.CreatePR, hid, hname, hauthor, hteam, hget]

/-- Instance on the example store: `pr2` is stored and a second creation by the existing
user A is answered with PR_EXISTS. -/
theorem createPR_duplicate_rejected_witness :
    (prService.CreatePR id 9 exampleStore ⟨"pr2", "again", "A", "", [], none, none⟩).result
        = (match repo.GetUserTeam exampleStore "A" with
          | .ok _ => .error (GoError.errorString "usecase.go:113" "PR_EXISTS")
          | .error err => .error (fmtErrorf "get author team: " err))
      ∧ (prService.CreatePR id 9 exampleStore
          ⟨"pr2", "again", "A", "", [], none, none⟩).store = exampleStore
      ∧ repo.GetPR (prService.CreatePR id 9 exampleStore
          ⟨"pr2", "again", "A", "", [], none, none⟩).store "pr2"
        = .ok ⟨"pr2", "feature", "A", "OPEN", ["B"], some 3, none⟩ :=
  createPR_duplicate_rejected id 9 exampleStore ⟨"pr2", "again", "A", "", [], none, none⟩
    ⟨"pr2", "feature", "A", "OPEN", ["B"], some 3, none⟩
    (reachable_keyed exampleStore exampleStore_reachable)
    (by decide) (by decide) (by rfl)

/-! ## Creation by an unknown author (C9) -/

/-- C9, as stated, fails: the empty author id is not the id of a user, and the call is
rejected by validation with "pr fields required", not with the author-not-found error. -/
theorem createPR_empty_author_validation :
    (∀ u ∈ exampleStore.users, u.ID ≠ "")
      ∧ (prService.CreatePR id 9 exampleStore ⟨"pr9", "new", "", "", [], none, none⟩).result
        = .error (GoError.errorString "usecase.go:91" "pr fields required")
      ∧ (prService.CreatePR id 9 exampleStore ⟨"pr9", "new", "", "", [], none, none⟩).result
        ≠ .error (GoError.wrapError "get author team: user not found"
            (GoError.errorString "repository.go:112" "user not found")) := by
  decide

/-- C9, amended. A `CreatePR` call whose author id is not the id of an existing user fails
and inserts no row (the store is unchanged): with the author-not-found error, which wraps
the repository's "user not found", when id, name and author id are non-empty, and with the
validation error "pr fields required" when one of them is empty. -/
theorem createPR_unknown_author (shuffle : List String → List String) (now : Nat)
    (s : Store) (pr : PullRequest) (hghost : ∀ u ∈ s.users, u.ID ≠ pr.AuthorID) :
    (prService.CreatePR shuffle now s pr).result
        = (if pr.ID = "" ∨ pr.Name = "" ∨ pr.AuthorID = "" then
            .error (GoError.errorString "usecase.go:91" "pr fields required")
          else
            .error (GoError.wrapError "get author team: user not found"
              (GoError.errorString "repository.go:112" "user not found")))
      ∧ (prService.CreatePR shuffle now s pr).store = s := by
  have hteam := getUserTeam_absent s pr.AuthorID hghost
  have hmsg : fmtErrorf "get author team: "
      (GoError.errorString "repository.go:112" "user not found")
      = GoError.wrapError "get author team: user not found"
          (GoError.errorString "repository.go:112" "user not found") := by
    decide
  by_cases hv : pr.ID = "" ∨ pr.Name = "" ∨ pr.AuthorID = ""
  · simp [prService.CreatePR, hv]
  · simp [prService.CreatePR, hv, hteam, hmsg]

/-- Instance on the example store: `ghost` is not a user; the call with all fields set
fails with the author-not-found error and the store is unchanged. -/
theorem createPR_unknown_author_witness :
    (prService.CreatePR id 9 exampleStore ⟨"pr9", "new", "ghost", "", [], none, none⟩).result
        = (if "pr9" = "" ∨ "new" = "" ∨ "ghost" = "" then
            .error (GoError.errorString "usecase.go:91" "pr fields required")
          else
            .error (GoError.wrapError "get author team: user not found"
              (GoError.errorString "repository.go:112" "user not found")))
      ∧ (prService.CreatePR id 9 exampleStore
          ⟨"pr9", "new", "ghost", "", [], none, none⟩).store = exampleStore :=
  createPR_unknown_author id 9 exampleStore ⟨"pr9", "new", "ghost", "", [], none, none⟩
    (by decide)

/-! ## Creation of a team: validation (C10) -/

/-- C10. `CreateTeam` returns one of its validation errors if and only if the team name is
empty, or the member list is empty, or some member has an empty id or an empty username;
it invokes no repository method if and only if that is the case, and then the store is
unchanged; for every other input the first repository method invoked is `GetTeam`. -/
theorem createTeam_validation (s : Store) (team : Team) :
    ((∃ e, (prService.CreateTeam s team).result = .error e ∧ isValidationError e)
        ↔ invalidTeam team)
      ∧ ((prService.CreateTeam s team).calls = [] ↔ invalidTeam team)
      ∧ (((prService.CreateTeam s team).calls = [] ∧ (prService.CreateTeam s team).store = s)
          ∨ (prService.CreateTeam s team).calls.head? = some prService.RepoCall.GetTeam) := by
  by_cases hname : team.Name = ""
  · have hinv : invalidTeam team := Or.inl hname
    simp [prService.CreateTeam, hname, hinv, isValidationError]
  · by_cases hlen : team.Members.length = 0
    · have hinv : invalidTeam team := Or.inr (Or.inl (List.length_eq_zero.mp hlen))
      simp [prService.CreateTeam, hname, hlen, hinv, isValidationError]
    · cases hany : team.Members.any
          (fun m => decide (m.ID = "") || decide (m.Username = "")) with
      | true =>
          have hinv : invalidTeam team :=
            Or.inr (Or.inr ((any_invalid_member_iff team.Members).mp hany))
          simp [prService.CreateTeam, hname, hlen, hany, hinv, isValidationError]
      | false =>
          have hvalid : ¬ invalidTeam team := by
            rintro (h | h | h)
            · exact hname h
            · exact hlen (by rw [h]; rfl)
            · rw [← any_invalid_member_iff, hany] at h
              exact absurd h (by simp)
          unfold prService.CreateTeam
          simp only [hname, hlen, hany, if_false, Bool.false_eq_true, hvalid, iff_false]
          cases hget : repo.GetTeam s team.Name with
          | ok t => simp [isValidationError]
          | error err =>
              by_cases hnf : errorsIs err repo.ErrTeamNotFound = true
              · simp only [hnf, Bool.not_true, Bool.false_eq_true, if_false]
                cases hget2 : repo.GetTeam (repo.CreateOrUpdateTeam s team) team.Name with
                | ok t => simp
                | error err1 => cases err1 <;> simp [isValidationError, fmtErrorf]
              · cases err <;> simp [hnf, isValidationError, fmtErrorf]

/-! ## Conflicts at the request surface (C11) -/

/-- Whatever the store and the team, once the use case raises its TEAM_EXISTS error the
handler answers 500 INTERNAL: the target built by the handler is another pointer. -/
theorem addTeam_conflict_internal (s : Store) (req : dto.TeamDTO)
    (h : (prService.CreateTeam s
        ⟨req.TeamName, req.Members.map (fun m => ⟨m.UserID, m.Username, m.IsActive⟩)⟩).result
      = .error (GoError.errorString "usecase.go:42" "TEAM_EXISTS")) :
    (Handler.AddTeam s (some req)).1 = Handler.sendError 500 "INTERNAL" "internal error" := by
  have hne : errorsIs (GoError.errorString "usecase.go:42" "TEAM_EXISTS")
      (GoError.errorString "handler.go:57" "TEAM_EXISTS") = false := by decide
  simp only [Handler.AddTeam, h, hne]
  rfl

/-- Whatever the store and the request, once the use case raises its PR_EXISTS error the
handler answers 500 INTERNAL. -/
theorem createPR_conflict_internal (shuffle : List String → List String) (now : Nat)
    (s : Store) (req : dto.PRCreateDTO)
    (h : (prService.CreatePR shuffle now s
        ⟨req.PullRequestID, req.PullRequestName, req.AuthorID, "", [], none, none⟩).result
      = .error (GoError.errorString "usecase.go:113" "PR_EXISTS")) :
    (Handler.CreatePR shuffle now s (some req)).1
      = Handler.sendError 500 "INTERNAL" "internal error" := by
  have hne : errorsIs (GoError.errorString "usecase.go:113" "PR_EXISTS")
      (GoError.errorString "handler.go:157" "PR_EXISTS") = false := by decide
  have hmsg : ¬ (GoError.errorString "usecase.go:113" "PR_EXISTS").Error = "user not found" := by
    decide
  simp only [Handler.CreatePR, h, hne, hmsg]
  rfl

/-- Whatever the store and the request, once the use case raises its PR_MERGED or its
NOT_ASSIGNED error the handler answers 500 INTERNAL. -/
theorem reassign_conflict_internal (pick : Nat) (s : Store) (req : dto.PRReassignDTO)
    (h : (prService.ReassignReviewer pick s req.PullRequestID req.OldUserID).result
        = .error (GoError.errorString "usecase.go:149" "PR_MERGED")
      ∨ (prService.ReassignReviewer pick s req.PullRequestID req.OldUserID).result
        = .error (GoError.errorString "usecase.go:160" "NOT_ASSIGNED")) :
    (Handler.Reassign pick s (some req)).1
      = Handler.sendError 500 "INTERNAL" "internal error" := by
  have h1 : errorsIs (GoError.errorString "usecase.go:149" "PR_MERGED")
      (GoError.errorString "handler.go:226" "PR_MERGED") = false := by decide
  have h2 : errorsIs (GoError.errorString "usecase.go:149" "PR_MERGED")
      (GoError.errorString "handler.go:228" "NOT_ASSIGNED") = false := by decide
  have h3 : errorsIs (GoError.errorString "usecase.go:160" "NOT_ASSIGNED")
      (GoError.errorString "handler.go:226" "PR_MERGED") = false := by decide
  have h4 : errorsIs (GoError.errorString "usecase.go:160" "NOT_ASSIGNED")
      (GoError.errorString "handler.go:228" "NOT_ASSIGNED") = false := by decide
  have h5 : ¬ (GoError.errorString "usecase.go:149" "PR_MERGED").Error = "no candidate" := by
    decide
  have h6 : ¬ (GoError.errorString "usecase.go:160" "NOT_ASSIGNED").Error = "no candidate" := by
    decide
  rcases h with h | h
  · simp only [Handler.Reassign, h, h1, h2, h5]
    rfl
  · simp only [Handler.Reassign, h, h3, h4, h6]
    rfl

/-- C11 fails on the code. On the example store each of the four conflicts is raised by
the use case with its own error, and each is answered by the handler with status 500 and
code INTERNAL: a second team `core`, a second pull request `pr2`, a reassignment on the
merged `pr1`, and a reassignment of A, who does not review `pr2`. -/
theorem conflicts_answered_internal :
    ((prService.CreateTeam exampleStore ⟨"core", [⟨"Z", "zed", true⟩]⟩).result
        = .error (GoError.errorString "usecase.go:42" "TEAM_EXISTS")
      ∧ Handler.AddTeam exampleStore (some ⟨"core", [⟨"Z", "zed", true⟩]⟩)
        = (⟨500, Handler.Payload.error "INTERNAL" "internal error"⟩, exampleStore))
    ∧ ((prService.CreatePR id 9 exampleStore
          ⟨"pr2", "again", "A", "", [], none, none⟩).result
        = .error (GoError.errorString "usecase.go:113" "PR_EXISTS")
      ∧ Handler.CreatePR id 9 exampleStore (some ⟨"pr2", "again", "A"⟩)
        = (⟨500, Handler.Payload.error "INTERNAL" "internal error"⟩, exampleStore))
    ∧ ((prService.ReassignReviewer 0 exampleStore "pr1" "B").result
        = .error (GoError.errorString "usecase.go:149" "PR_MERGED")
      ∧ Handler.Reassign 0 exampleStore (some ⟨"pr1", "B"⟩)
        = (⟨500, Handler.Payload.error "INTERNAL" "internal error"⟩, exampleStore))
    ∧ ((prService.ReassignReviewer 0 exampleStore "pr2" "A").result
        = .error (GoError.errorString "usecase.go:160" "NOT_ASSIGNED")
      ∧ Handler.Reassign 0 exampleStore (some ⟨"pr2", "A"⟩)
        = (⟨500, Handler.Payload.error "INTERNAL" "internal error"⟩, exampleStore)) := by
  decide

/-! ## Absent entities at the request surface (C12) -/

/-- For every store and every pull request id that is not stored, the merge request is
answered with 500 INTERNAL and the store is unchanged: the use case wraps the repository's
"pr not found", and the handler compares the wrapped message with the bare one. -/
theorem mergePR_absent_internal (now : Nat) (s : Store) (prID : String)
    (h : ∀ p ∈ s.pull_requests, p.ID ≠ prID) :
    Handler.MergePR now s (some ⟨prID⟩)
      = (Handler.sendError 500 "INTERNAL" "internal error", s) := by
  by_cases hid : prID = ""
  · subst hid
    have hmsg : ¬ (GoError.errorString "usecase.go:126" "pr id required").Error
        = "pr not found" := by decide
    simp only [Handler.MergePR, prService.MergePR, if_true, hmsg, if_false]
  · have hnone : ∀ r ∈ s.pull_requests, repo.mergeWhere prID r = false := by
      intro r hr
      simp [repo.mergeWhere, h r hr]
    have hupd := sqlUpdate_none s.pull_requests (repo.mergeWhere prID) (repo.mergeSet now)
      hnone
    have habs := getPR_absent s prID h
    have hmsg : ¬ (fmtErrorf "merge pr: "
        (GoError.errorString "repository.go:202" "pr not found")).Error = "pr not found" := by
      decide
    simp only [Handler.MergePR, prService.MergePR, repo.MergePR, hid, if_false, hupd, habs,
      hmsg]

/-- For every store and every user id that is not stored, the request to set the active
flag is answered with 500 INTERNAL and the store is unchanged. -/
theorem setIsActive_absent_internal (s : Store) (userID : String) (isActive : Bool)
    (h : ∀ u ∈ s.users, u.ID ≠ userID) :
    Handler.SetIsActive s (some ⟨userID, isActive⟩)
      = (Handler.sendError 500 "INTERNAL" "internal error", s) := by
  by_cases hid : userID = ""
  · subst hid
    have hmsg : ¬ (GoError.errorString "usecase.go:78" "user id required").Error
        = "user not found" := by decide
    simp only [Handler.SetIsActive, prService.SetUserActive, if_true, hmsg, if_false]
  · have hnone : ∀ r ∈ s.users, decide (r.ID = userID) = false := by
      intro r hr
      simp [h r hr]
    have hupd := sqlUpdate_none s.users (fun u => decide (u.ID = userID))
      (fun u => { u with IsActive := isActive }) hnone
    have hmsg : ¬ (fmtErrorf "set active: "
        (GoError.errorString "repository.go:100" "user not found")).Error
        = "user not found" := by decide
    simp only [Handler.SetIsActive, prService.SetUserActive, repo.SetUserActive, hid,
      if_false, hupd, hmsg]

/-- C12 fails on the code. On the example store, which holds no pull request `nope` and no
user `ghost`, the repository reports the absence, the use case returns that error wrapped,
and the handler answers both requests with status 500 and code INTERNAL, not with 404
NOT_FOUND; the store is unchanged. -/
theorem absence_answered_internal :
    ((prService.MergePR 9 exampleStore "nope").result
        = .error (GoError.wrapError "merge pr: pr not found"
            (GoError.errorString "repository.go:202" "pr not found"))
      ∧ Handler.MergePR 9 exampleStore (some ⟨"nope"⟩)
        = (⟨500, Handler.Payload.error "INTERNAL" "internal error"⟩, exampleStore))
    ∧ ((prService.SetUserActive exampleStore "ghost" false).result
        = .error (GoError.wrapError "set active: user not found"
            (GoError.errorString "repository.go:100" "user not found"))
      ∧ Handler.SetIsActive exampleStore (some ⟨"ghost", false⟩)
        = (⟨500, Handler.Payload.error "INTERNAL" "internal error"⟩, exampleStore)) := by
  decide

/-! ## Frame of `SetUserActive` (C13) -/

/-- C13. On a store with the key discipline (every reachable store has it) and for an id
found in the users table, `SetUserActive` succeeds and returns a user with that id and the
given flag; afterwards the tables of teams and of pull requests are what they were (status
and reviewers of every pull request included), the users table has the same rows in the
same order, and each row is the old one, with the active flag replaced by the given value
when the row carries the given id, and untouched otherwise. -/
theorem setUserActive_frame (s : Store) (userID : String) (isActive : Bool)
    (hs : s.Keyed) (hex : ∃ u ∈ s.users, u.ID = userID) :
    (∃ u, (prService.SetUserActive s userID isActive).result = .ok u
        ∧ u.ID = userID ∧ u.IsActive = isActive)
      ∧ (prService.SetUserActive s userID isActive).store.teams = s.teams
      ∧ (prService.SetUserActive s userID isActive).store.pull_requests = s.pull_requests
      ∧ (prService.SetUserActive s userID isActive).store.users.length = s.users.length
      ∧ ∀ (i : Nat) (u : User), s.users[i]? = some u →
          (prService.SetUserActive s userID isActive).store.users[i]?
            = some (if u.ID = userID then { u with IsActive := isActive } else u) := by
  obtain ⟨u0, hu0, hid0⟩ := hex
  have hne : userID ≠ "" := hid0 ▸ hs.2.2.1 u0 hu0
  have hstore : (prService.SetUserActive s userID isActive).store
      = { s with users := (s.users.map
            (fun u => if u.ID = userID then { u with IsActive := isActive } else u)) } := by
    rw [← repo_setUserActive_store]
    unfold prService.SetUserActive
    rw [if_neg hne]
    cases h : repo.SetUserActive s userID isActive with
    | mk res s1 => cases res <;> rfl
  refine ⟨?_, ?_, ?_, ?_, ?_⟩
  · have hmem : u0 ∈ s.users.filter (fun u => decide (u.ID = userID)) := by
      rw [List.mem_filter]
      exact ⟨hu0, by simpa using hid0⟩
    cases hf : s.users.filter (fun u => decide (u.ID = userID)) with
    | nil => rw [hf] at hmem; exact absurd hmem (List.not_mem_nil u0)
    | cons a l =>
        have ha : a ∈ s.users.filter (fun u => decide (u.ID = userID)) := by
          rw [hf]; exact List.mem_cons_self a l
        have haid : a.ID = userID := by simpa using (List.mem_filter.mp ha).2
        refine ⟨{ a with IsActive := isActive }, ?_, haid, rfl⟩
        simp [prService.SetUserActive, repo.SetUserActive, sqlUpdate, hne, hf]
  · rw [hstore]
  · rw [hstore]
  · rw [hstore]
    simp
  · intro i u hi
    rw [hstore]
    simp [List.getElem?_map, hi]

/-- Instance on the example store: B, reviewer of `pr1`, `pr2` and `pr4`, is deactivated. -/
theorem setUserActive_frame_witness :
    (∃ u, (prService.SetUserActive exampleStore "B" false).result = .ok u
        ∧ u.ID = "B" ∧ u.IsActive = false)
      ∧ (prService.SetUserActive exampleStore "B" false).store.teams = exampleStore.teams
      ∧ (prService.SetUserActive exampleStore "B" false).store.pull_requests
          = exampleStore.pull_requests
      ∧ (prService.SetUserActive exampleStore "B" false).store.users.length
          = exampleStore.users.length
      ∧ ∀ (i : Nat) (u : User), exampleStore.users[i]? = some u →
          (prService.SetUserActive exampleStore "B" false).store.users[i]?
            = some (if u.ID = "B" then { u with IsActive := false } else u) :=
  setUserActive_frame exampleStore "B" false
    (reachable_keyed exampleStore exampleStore_reachable)
    ⟨⟨"B", "bob", "core", true⟩, by decide, rfl⟩

/-! ## The table of pull requests after one operation -/

/-- The table of pull requests after any operation: as before; or with one new row that
is OPEN, has no merge time, at most two reviewers and a fresh id; or with the rows selected
by the merge update merged; or with the rows selected by the reassignment update holding a
replaced reviewer. -/
theorem run_pull_requests_cases (op : Operation) (s : Store) :
    (op.run s).pull_requests = s.pull_requests
      ∨ (∃ row : PullRequest, row.Status = "OPEN" ∧ row.MergedAt = none
          ∧ row.AssignedReviewers.length ≤ 2 ∧ (∀ p ∈ s.pull_requests, p.ID ≠ row.ID)
          ∧ (op.run s).pull_requests = s.pull_requests ++ [row])
      ∨ (∃ now prID, (op.run s).pull_requests = s.pull_requests.map
          (fun r => if repo.mergeWhere prID r then repo.mergeSet now r else r))
      ∨ (∃ prID oldUserID newUserID, (op.run s).pull_requests = s.pull_requests.map
          (fun r => if repo.reassignWhere prID oldUserID r
            then repo.reassignSet oldUserID newUserID r else r)) := by
  cases op with
  | createTeam team =>
      left
      show (prService.CreateTeam s team).store.pull_requests = _
      rcases createTeam_store_cases s team with h | ⟨_, h⟩ <;> rw [h]
      rfl
  | setUserActive userID isActive =>
      left
      show (prService.SetUserActive s userID isActive).store.pull_requests = _
      rcases setUserActive_store_cases s userID isActive with h | h <;> rw [h]
  | createPR shuffle now pr =>
      show (prService.CreatePR shuffle now s pr).store.pull_requests = _ ∨ _
      rcases createPR_store_cases shuffle now s pr with h | ⟨_, hfresh, _, revs, _, hlen, _, h⟩
      · left; rw [h]
      · right; left
        exact ⟨⟨pr.ID, pr.Name, pr.AuthorID, "OPEN", revs, some now, none⟩, rfl, rfl, hlen,
          hfresh, congrArg Store.pull_requests h⟩
  | mergePR now prID =>
      show (prService.MergePR now s prID).store.pull_requests = _ ∨ _
      rcases mergePR_store_cases now s prID with h | h
      · left; rw [h]
      · right; right; left
        exact ⟨now, prID, congrArg Store.pull_requests h⟩
  | reassignReviewer pick prID oldUserID =>
      show (prService.ReassignReviewer pick s prID oldUserID).store.pull_requests = _ ∨ _
      rcases reassignReviewer_store_cases pick s prID oldUserID with h | ⟨new, _, h⟩
      · left; rw [h]
      · right; right; right
        exact ⟨prID, oldUserID, new, congrArg Store.pull_requests h⟩

/-- Every reachable store is the empty store or is left by an operation on a reachable
store. -/
theorem reachable_cases (s : Store) (h : Reachable s) :
    s = Store.empty ∨ ∃ op s0, Reachable s0 ∧ s = Operation.run op s0 := by
  cases h with
  | empty => exact Or.inl rfl
  | createTeam s0 team h0 => exact Or.inr ⟨.createTeam team, s0, h0, rfl⟩
  | setUserActive s0 userID isActive h0 =>
      exact Or.inr ⟨.setUserActive userID isActive, s0, h0, rfl⟩
  | createPR s0 shuffle now pr h0 _ => exact Or.inr ⟨.createPR shuffle now pr, s0, h0, rfl⟩
  | mergePR s0 now prID h0 => exact Or.inr ⟨.mergePR now prID, s0, h0, rfl⟩
  | reassignReviewer s0 pick prID oldUserID h0 =>
      exact Or.inr ⟨.reassignReviewer pick prID oldUserID, s0, h0, rfl⟩

/-- A property of pull request rows that holds of every new OPEN row without merge time
and with at most two reviewers, and that the merge and reassignment updates keep, holds of
every row of the store left by an operation when it held of every row before. -/
theorem run_rows_invariant (P : PullRequest → Prop) (op : Operation) (s : Store)
    (hnew : ∀ row : PullRequest, row.Status = "OPEN" → row.MergedAt = none →
      row.AssignedReviewers.length ≤ 2 → P row)
    (hmerge : ∀ now q, P q → P (repo.mergeSet now q))
    (hreassign : ∀ oldUserID newUserID q, P q → P (repo.reassignSet oldUserID newUserID q))
    (h : ∀ p ∈ s.pull_requests, P p) : ∀ p ∈ (op.run s).pull_requests, P p := by
  intro p hp
  rcases run_pull_requests_cases op s with h1 | ⟨row, hst, hm, hlen, _, h1⟩
    | ⟨now, prID, h1⟩ | ⟨prID, oldUserID, newUserID, h1⟩
  · rw [h1] at hp; exact h p hp
  · rw [h1] at hp
    rcases List.mem_append.mp hp with hp | hp
    · exact h p hp
    · rw [List.mem_singleton] at hp
      rw [hp]; exact hnew row hst hm hlen
  · rw [h1] at hp
    obtain ⟨q, hq, hqp⟩ := List.mem_map.mp hp
    rw [← hqp]
    split
    · exact hmerge now q (h q hq)
    · exact h q hq
  · rw [h1] at hp
    obtain ⟨q, hq, hqp⟩ := List.mem_map.mp hp
    rw [← hqp]
    split
    · exact hreassign oldUserID newUserID q (h q hq)
    · exact h q hq

/-- A property of rows as in `run_rows_invariant` holds of every row of every reachable
store. -/
theorem reachable_rows_invariant (P : PullRequest → Prop)
    (hnew : ∀ row : PullRequest, row.Status = "OPEN" → row.MergedAt = none →
      row.AssignedReviewers.length ≤ 2 → P row)
    (hmerge : ∀ now q, P q → P (repo.mergeSet now q))
    (hreassign : ∀ oldUserID newUserID q, P q → P (repo.reassignSet oldUserID newUserID q))
    (s : Store) (h : Reachable s) : ∀ p ∈ s.pull_requests, P p := by
  induction h with
  | empty => intro p hp; exact absurd hp (List.not_mem_nil p)
  | createTeam s0 team _ ih =>
      exact run_rows_invariant P (.createTeam team) s0 hnew hmerge hreassign ih
  | setUserActive s0 userID isActive _ ih =>
      exact run_rows_invariant P (.setUserActive userID isActive) s0 hnew hmerge hreassign ih
  | createPR s0 shuffle now pr _ _ ih =>
      exact run_rows_invariant P (.createPR shuffle now pr) s0 hnew hmerge hreassign ih
  | mergePR s0 now prID _ ih =>
      exact run_rows_invariant P (.mergePR now prID) s0 hnew hmerge hreassign ih
  | reassignReviewer s0 pick prID oldUserID _ ih =>
      exact run_rows_invariant P (.reassignReviewer pick prID oldUserID) s0 hnew hmerge
        hreassign ih

theorem mergedAtRule_new (row : PullRequest) (hst : row.Status = "OPEN")
    (hm : row.MergedAt = none) : mergedAtRule row := by
  unfold mergedAtRule
  rw [hst, hm]
  constructor
  · intro h; exact absurd rfl h
  · intro h; exact absurd h (by decide)

theorem mergedAtRule_mergeSet (now : Nat) (q : PullRequest) :
    mergedAtRule (repo.mergeSet now q) := by
  simp [mergedAtRule, repo.mergeSet]

theorem mergedAtRule_reassignSet (oldUserID newUserID : String) (q : PullRequest)
    (h : mergedAtRule q) : mergedAtRule (repo.reassignSet oldUserID newUserID q) := h

theorem getPR_congr (s1 s2 : Store) (prID : String)
    (h : s1.pull_requests = s2.pull_requests) : repo.GetPR s1 prID = repo.GetPR s2 prID := by
  unfold repo.GetPR
  rw [h]

/-- A merged pull request is found unchanged after any operation. -/
theorem run_keeps_merged (op : Operation) (s : Store) (prID : String) (p : PullRequest)
    (hget : repo.GetPR s prID = .ok p) (hst : p.Status = "MERGED") :
    repo.GetPR (op.run s) prID = .ok p := by
  have hfind := (getPR_ok_iff s prID p).mp hget
  have hno : p.Status ≠ "OPEN" := by rw [hst]; decide
  rcases run_pull_requests_cases op s with h1 | ⟨row, _, _, _, _, h1⟩
    | ⟨now, mID, h1⟩ | ⟨rID, oldUserID, newUserID, h1⟩
  · rw [getPR_congr (op.run s) s prID h1]; exact hget
  · rw [getPR_ok_iff, h1, List.find?_append, hfind]
    rfl
  · rw [getPR_ok_iff, h1, find_map_key _ _ _ (by intro q; split <;> rfl), hfind]
    have hc : repo.mergeWhere mID p = false := by
      simp [repo.mergeWhere, hno]
    simp [hc]
  · rw [getPR_ok_iff, h1, find_map_key _ _ _ (by intro q; split <;> rfl), hfind]
    have hc : repo.reassignWhere rID oldUserID p = false := by
      simp [repo.reassignWhere, hno]
    simp [hc]

/-- The store `reviewStore` is left by two calls on the empty store. -/
theorem reviewStore_reachable : Reachable reviewStore := by
  have h1 := Reachable.createTeam _
    ⟨"core2", [⟨"D", "dan", true⟩, ⟨"E", "eve", true⟩, ⟨"F", "fay", true⟩]⟩ Reachable.empty
  have h2 := Reachable.createPR _ id 1 ⟨"pr2", "feature", "D", "", [], none, none⟩ h1
    (fun l => List.Perm.refl l)
  exact h2

/-! ## Reviewer lists of reachable stores (C14) -/

/-- C14. In every store reachable from the empty store by calls of `CreateTeam`,
`SetUserActive`, `CreatePR`, `MergePR` and `ReassignReviewer`, every pull request has at
most two assigned reviewers. -/
theorem reachable_reviewers_at_most_two (s : Store) (h : Reachable s) :
    ∀ p ∈ s.pull_requests, p.AssignedReviewers.length ≤ 2 :=
  reachable_rows_invariant (fun p => p.AssignedReviewers.length ≤ 2)
    (fun _ _ _ hlen => hlen) (fun _ _ hq => hq)
    (fun oldUserID newUserID q hq => by
      simpa [repo.reassignSet, array_replace] using hq)
    s h

/-- Instance on the store left by a reassignment on `reviewStore` that draws F, already a
reviewer: the store is reachable and its pull request has two reviewers. -/
theorem reachable_reviewers_at_most_two_witness :
    Reachable (prService.ReassignReviewer 1 reviewStore "pr2" "E").store
      ∧ ∀ p ∈ (prService.ReassignReviewer 1 reviewStore "pr2" "E").store.pull_requests,
          p.AssignedReviewers.length ≤ 2 :=
  ⟨Reachable.reassignReviewer reviewStore 1 "pr2" "E" reviewStore_reachable,
    reachable_reviewers_at_most_two _
      (Reachable.reassignReviewer reviewStore 1 "pr2" "E" reviewStore_reachable)⟩

/-! ## MERGED is terminal (C15) -/

/-- C15. For every store and every operation with any arguments, a pull request that is
MERGED before the operation is found afterwards as the same row, hence MERGED, with the
same `merged_at` and the same reviewers. The rule that `merged_at` is set exactly when the
status is MERGED is kept by every operation and holds in every reachable store. -/
theorem merged_is_terminal (op : Operation) (s : Store) :
    (∀ prID p, repo.GetPR s prID = .ok p → p.Status = "MERGED" →
        ∃ p1, repo.GetPR (op.run s) prID = .ok p1 ∧ p1 = p ∧ p1.Status = "MERGED"
          ∧ p1.MergedAt = p.MergedAt ∧ p1.AssignedReviewers = p.AssignedReviewers)
      ∧ ((∀ p ∈ s.pull_requests, mergedAtRule p) →
          ∀ p ∈ (op.run s).pull_requests, mergedAtRule p)
      ∧ (Reachable s → (∀ p ∈ s.pull_requests, mergedAtRule p)
          ∧ ∀ p ∈ (op.run s).pull_requests, mergedAtRule p) := by
  have hstep : (∀ p ∈ s.pull_requests, mergedAtRule p) →
      ∀ p ∈ (op.run s).pull_requests, mergedAtRule p :=
    run_rows_invariant mergedAtRule op s (fun row hst hm _ => mergedAtRule_new row hst hm)
      (fun now q _ => mergedAtRule_mergeSet now q) mergedAtRule_reassignSet
  refine ⟨?_, hstep, ?_⟩
  · intro prID p hget hst
    exact ⟨p, run_keeps_merged op s prID p hget hst, rfl, hst, rfl, rfl⟩
  · intro hr
    have hrule := reachable_rows_invariant mergedAtRule
      (fun row hst hm _ => mergedAtRule_new row hst hm)
      (fun now q _ => mergedAtRule_mergeSet now q) mergedAtRule_reassignSet s hr
    exact ⟨hrule, hstep hrule⟩

/-- Instance on the example store: the merged `pr1` after a reassignment of its reviewer B
and after a second merge at a later time. -/
theorem merged_is_terminal_witness :
    (∃ p1, repo.GetPR ((Operation.reassignReviewer 0 "pr1" "B").run exampleStore) "pr1"
          = .ok p1
        ∧ p1 = ⟨"pr1", "fix", "A", "MERGED", ["B"], some 1, some 2⟩ ∧ p1.Status = "MERGED"
        ∧ p1.MergedAt = some 2 ∧ p1.AssignedReviewers = ["B"])
      ∧ (∃ p1, repo.GetPR ((Operation.mergePR 77 "pr1").run exampleStore) "pr1" = .ok p1
        ∧ p1 = ⟨"pr1", "fix", "A", "MERGED", ["B"], some 1, some 2⟩ ∧ p1.Status = "MERGED"
        ∧ p1.MergedAt = some 2 ∧ p1.AssignedReviewers = ["B"])
      ∧ ∀ p ∈ ((Operation.mergePR 77 "pr2").run exampleStore).pull_requests,
          mergedAtRule p :=
  ⟨(merged_is_terminal (.reassignReviewer 0 "pr1" "B") exampleStore).1 "pr1"
      ⟨"pr1", "fix", "A", "MERGED", ["B"], some 1, some 2⟩ (by rfl) (by rfl),
    (merged_is_terminal (.mergePR 77 "pr1") exampleStore).1 "pr1"
      ⟨"pr1", "fix", "A", "MERGED", ["B"], some 1, some 2⟩ (by rfl) (by rfl),
    ((merged_is_terminal (.mergePR 77 "pr2") exampleStore).2.2 exampleStore_reachable).2⟩

/-! ## Reassignment can pick the author or a present reviewer (C16) -/

/-- C16. The store `reviewStore` is reachable; its team has the active members D, E, F and
its open pull request `pr2`, authored by D, has the two different reviewers E and F, the
author not among them. Reassigning E succeeds with the author D as new reviewer when the
random source picks the first candidate, and with F, already a reviewer, when it picks the
second: the resulting lists are D, F (the author reviews) and F, F (a reviewer twice). -/
theorem reassign_can_pick_author_or_duplicate :
    Reachable reviewStore
      ∧ repo.activeExcluding reviewStore "core2" "" = ["D", "E", "F"]
      ∧ (∃ pr, repo.GetPR reviewStore "pr2" = .ok pr ∧ pr.Status = "OPEN"
          ∧ pr.AuthorID = "D" ∧ pr.AssignedReviewers = ["E", "F"]
          ∧ pr.AuthorID ∉ pr.AssignedReviewers ∧ pr.AssignedReviewers.Nodup)
      ∧ repo.activeExcluding reviewStore "core2" "E" = ["D", "F"]
      ∧ (∃ pr1, (prService.ReassignReviewer 0 reviewStore "pr2" "E").result = .ok (pr1, "D")
          ∧ pr1.AssignedReviewers = ["D", "F"] ∧ pr1.AuthorID ∈ pr1.AssignedReviewers)
      ∧ (∃ pr1, (prService.ReassignReviewer 1 reviewStore "pr2" "E").result = .ok (pr1, "F")
          ∧ pr1.AssignedReviewers = ["F", "F"] ∧ ¬ pr1.AssignedReviewers.Nodup) :=
  ⟨reviewStore_reachable, by decide,
    ⟨⟨"pr2", "feature", "D", "OPEN", ["E", "F"], some 1, none⟩, by decide, rfl, rfl, rfl,
      by decide, by decide⟩,
    by decide,
    ⟨⟨"pr2", "feature", "D", "OPEN", ["D", "F"], some 1, none⟩, by decide, rfl, by decide⟩,
    ⟨⟨"pr2", "feature", "D", "OPEN", ["F", "F"], some 1, none⟩, by decide, rfl, by decide⟩⟩
